import Mathlib

/-!
Shallow embedding of the civchess core rules engine (`src/js/main.js`,
class `GameEngine`, with constants from `src/js/constants.js`).

Modelling conventions:
* JS numbers used as board coordinates are modelled as `Int` (move targets
  may be negative before the bounds check rejects them); hit points and
  production progress are `Int` (combat drives hp below zero); counters
  and identifiers are `Nat`.
* The JS board is a 10x10 array of piece references.  We model it as a
  function `Int → Int → Option Nat` holding piece ids, read through
  `getCell`, which returns `none` outside the 10x10 range exactly as the
  JS array yields `undefined` there.  The piece registry `pieces` is a
  list of `Piece` records; a piece object shared by the board and the
  registry in JS is represented by its id.
* `Math.random()`-driven choices are injected: the elimination shuffle is
  a parameter `shuffle : List Piece → List Piece` (theorems assume it is
  a permutation), and `expandTerritory`'s candidate choice is a `Nat`
  taken modulo the number of candidates.
* Piece ids (`Date.now()`-based strings in JS) are modelled by a fresh
  counter `nextId` in the state.
* The action log, history snapshots and `console.log` calls are pure
  observers in JS (they never feed back into the rules); they are omitted
  from the state.
-/

/-- `PIECE_TYPES` from `constants.js`. -/
inductive PieceType where
  | city
  | warrior
  | settler
deriving DecidableEq, Repr

/-- Relation strings stored in `player.relations`. -/
inductive Relation where
  | peace
  | peaceProposed
  | war
deriving DecidableEq, Repr

/-- Keys of `PRODUCTION_TYPES` from `constants.js`. -/
inductive ProdType where
  | diplomacy
  | science
  | warrior
  | settler
  | repair
deriving DecidableEq, Repr

/-- `PRODUCTION_TYPES[..].turns` from `constants.js`. -/
def prodTurns : ProdType → Int
  | .diplomacy => 4
  | .science => 10
  | .warrior => 4
  | .settler => 6
  | .repair => 1

/-- A piece object as built by `GameEngine.createPiece`. -/
structure Piece where
  id : Nat
  type : PieceType
  ownerId : Nat
  row : Int
  col : Int
  hp : Int
  maxHp : Nat
  damage : Nat
  hasMoved : Bool
  production : Option ProdType
  productionProgress : Int
  productionPaused : Bool
  repeatProduction : Bool
deriving DecidableEq, Repr

/-- A player object as built by `GameEngine.setupGame`.  The JS
`relations` dictionary maps another player's id to a relation string; a
missing key (`undefined` in JS) is `none`. -/
structure Player where
  techScore : Nat
  relations : Nat → Option Relation

/-- The board / tile-ownership grids: cell content indexed by row and
column.  Values outside the 10x10 range are never observable (reads go
through `getCell`). -/
def Board : Type := Int → Int → Option Nat

/-- `BOARD_SIZE` from `constants.js`. -/
def BOARD_SIZE : Int := 10

/-- `GameEngine.isValidTile`. -/
def isValidTile (row col : Int) : Bool :=
  0 ≤ row && row < BOARD_SIZE && 0 ≤ col && col < BOARD_SIZE

/-- Guarded read of a grid, mirroring a JS 10x10 array access: out of
range yields `undefined`, i.e. `none`. -/
def getCell (b : Board) (r c : Int) : Option Nat :=
  if isValidTile r c then b r c else none

/-- Write one grid cell. -/
def setCell (b : Board) (r c : Int) (v : Option Nat) : Board :=
  fun r' c' => if r' == r && c' == c then v else b r' c'

/-- The mutable fields of `GameEngine` that the rules read and write. -/
structure GameState where
  players : List Player
  currentPlayerIndex : Nat
  board : Board
  pieces : List Piece
  tileOwnership : Board
  gameOver : Bool
  winner : Option Nat
  turnNumber : Nat
  nextId : Nat

/-- Look a piece up in the registry by id (a JS board cell holds the
object itself; we follow the id back to the registry). -/
def findPiece (s : GameState) (pid : Nat) : Option Piece :=
  s.pieces.find? (fun q => q.id == pid)

/-- The piece object stored at a board cell (`this.board[r][c]`). -/
def pieceAt (s : GameState) (r c : Int) : Option Piece :=
  match getCell s.board r c with
  | some pid => findPiece s pid
  | none => none

/-- Apply an in-place mutation of the piece object with the given id
(JS mutates the object shared by the registry and the board). -/
def updatePiece (s : GameState) (pid : Nat) (f : Piece → Piece) : GameState :=
  { s with pieces := s.pieces.map (fun q => if q.id == pid then f q else q) }

/-- `this.players[i]` (reads of a valid index). -/
def playerAt (s : GameState) (i : Nat) : Option Player :=
  s.players[i]?

/-- The relation entry `players[i].relations[j]`. -/
def relOf (s : GameState) (i j : Nat) : Option Relation :=
  match s.players[i]? with
  | some pl => pl.relations j
  | none => none

/-- `GameEngine.createPiece` (stats table plus tech bonus; the id is the
injected fresh counter). -/
def createPiece (players : List Player) (pid : Nat) (ty : PieceType)
    (owner : Nat) (r c : Int) : Piece :=
  let base : Nat × Nat × Nat :=
    match ty with
    | .city => (4, 4, 0)
    | .warrior => (1, 1, 1)
    | .settler => (1, 1, 0)
  let tech : Nat :=
    match players[owner]? with
    | some pl => pl.techScore
    | none => 0
  let hp0 := base.1
  let maxHp0 := base.2.1
  let dmg0 := base.2.2
  let hp1 := if ty == .city || ty == .warrior then hp0 + tech else hp0
  let maxHp1 := if ty == .city || ty == .warrior then maxHp0 + tech else maxHp0
  let dmg1 := if ty == .warrior then dmg0 + tech else dmg0
  { id := pid, type := ty, ownerId := owner, row := r, col := c,
    hp := (hp1 : Int), maxHp := maxHp1, damage := dmg1, hasMoved := false,
    production := none, productionProgress := 0, productionPaused := false,
    repeatProduction := true }

/-- The `createPiece` / `pieces.push` / `board[r][c] = piece` sequence
shared by elimination conversion, `settlerBuildCity` and `spawnUnit`. -/
def addPiece (s : GameState) (ty : PieceType) (owner : Nat) (r c : Int) :
    Piece × GameState :=
  let p := createPiece s.players s.nextId ty owner r c
  (p, { s with pieces := s.pieces ++ [p],
               board := setCell s.board r c (some p.id),
               nextId := s.nextId + 1 })

/-- `GameEngine.removePiece`: splice the object out of the registry and
clear its board cell.  `indexOf` finds the first (unique, given distinct
ids) entry with this id. -/
def removePiece (s : GameState) (p : Piece) : GameState :=
  { s with pieces := s.pieces.eraseP (fun q => q.id == p.id),
           board := setCell s.board p.row p.col none }

/-- Result record of `canMoveTo` / `canSettlerBuildCity`. -/
structure ValidCheck where
  valid : Bool
  reason : Option String
deriving DecidableEq, Repr

/-- `this.players[playerId].relations[otherId]` (reads used by the move
and combat rules). -/
def relationOf (s : GameState) (playerId otherId : Nat) : Option Relation :=
  match s.players[playerId]? with
  | some pl => pl.relations otherId
  | none => none

/-- The tile-ownership restriction of `canMoveTo`: the target tile is
owned by a different player and the mover's relation to that player is
peace. -/
def peaceTileBlocked (s : GameState) (piece : Piece) (targetRow targetCol : Int) : Bool :=
  match getCell s.tileOwnership targetRow targetCol with
  | some o => o != piece.ownerId && (relationOf s piece.ownerId o == some Relation.peace)
  | none => false

/-- `GameEngine.isPathClear` walk, fuelled by the Chebyshev distance
(the only call site is an orthogonal settler move of length 1–3, where
the walk reaches the target in exactly that many steps, as in JS). -/
def pathClearAux (s : GameState) (toRow toCol rowDir colDir : Int) :
    Nat → Int → Int → Bool
  | 0, _, _ => true
  | fuel + 1, r, c =>
    if r == toRow && c == toCol then true
    else if (getCell s.board r c).isSome then false
    else pathClearAux s toRow toCol rowDir colDir fuel (r + rowDir) (c + colDir)

/-- `GameEngine.isPathClear`. -/
def isPathClear (s : GameState) (fromRow fromCol toRow toCol : Int) : Bool :=
  let rowDir := (toRow - fromRow).sign
  let colDir := (toCol - fromCol).sign
  pathClearAux s toRow toCol rowDir colDir
    (max (toRow - fromRow).natAbs (toCol - fromCol).natAbs)
    (fromRow + rowDir) (fromCol + colDir)

/-- `GameEngine.isBlockedByBlockade`. -/
def isBlockedByBlockade (s : GameState) (fromRow fromCol toRow toCol : Int)
    (movingOwnerId : Nat) : Bool :=
  let rowDiff := toRow - fromRow
  let colDiff := toCol - fromCol
  if rowDiff.natAbs != 1 || colDiff.natAbs != 1 then false
  else
    match pieceAt s fromRow toCol, pieceAt s toRow fromCol with
    | some piece1, some piece2 =>
      if piece1.type != .warrior || piece2.type != .warrior then false
      else if piece1.ownerId != piece2.ownerId then false
      else if piece1.ownerId == movingOwnerId then false
      else true
    | _, _ => false

/-- The tail of `canMoveTo` shared by both piece types: the blockade
check followed by the collision check. -/
def canMoveToTail (s : GameState) (piece : Piece) (targetRow targetCol : Int) :
    ValidCheck :=
  if isBlockedByBlockade s piece.row piece.col targetRow targetCol piece.ownerId then
    ⟨false, some "Blocked by enemy blockade"⟩
  else
    match pieceAt s targetRow targetCol with
    | some targetPiece =>
      if piece.type == .settler then
        ⟨false, some "Settlers cannot attack"⟩
      else if piece.type == .warrior then
        if relationOf s piece.ownerId targetPiece.ownerId == some Relation.peace then
          ⟨false, some "Cannot attack player at peace"⟩
        else if targetPiece.ownerId == piece.ownerId then
          ⟨false, some "Cannot attack own piece"⟩
        else ⟨true, none⟩
      else ⟨true, none⟩
    | none => ⟨true, none⟩

/-- `GameEngine.canMoveTo`. -/
def canMoveTo (s : GameState) (piece : Piece) (targetRow targetCol : Int) :
    ValidCheck :=
  if !(isValidTile targetRow targetCol) then
    ⟨false, some "Out of bounds"⟩
  else if piece.hasMoved then
    ⟨false, some "Piece has already moved this turn"⟩
  else if piece.type == .city then
    ⟨false, some "Cities cannot move"⟩
  else if peaceTileBlocked s piece targetRow targetCol then
    ⟨false, some "Cannot move onto tile owned by player at peace"⟩
  else
    let rowDiff := (targetRow - piece.row).natAbs
    let colDiff := (targetCol - piece.col).natAbs
    if piece.type == .warrior then
      if rowDiff > 1 || colDiff > 1 then
        ⟨false, some "Warriors can only move 1 tile"⟩
      else if rowDiff == 0 && colDiff == 0 then
        ⟨false, some "Must move to a different tile"⟩
      else canMoveToTail s piece targetRow targetCol
    else if piece.type == .settler then
      if rowDiff > 0 && colDiff > 0 then
        ⟨false, some "Settlers cannot move diagonally"⟩
      else if rowDiff > 3 || colDiff > 3 then
        ⟨false, some "Settlers can only move up to 3 tiles"⟩
      else if rowDiff == 0 && colDiff == 0 then
        ⟨false, some "Must move to a different tile"⟩
      else if !(isPathClear s piece.row piece.col targetRow targetCol) then
        ⟨false, some "Path is blocked"⟩
      else canMoveToTail s piece targetRow targetCol
    else canMoveToTail s piece targetRow targetCol

/-- `GameEngine.getPlayerCities`. -/
def getPlayerCities (s : GameState) (playerId : Nat) : List Piece :=
  s.pieces.filter (fun p => p.type == PieceType.city && p.ownerId == playerId)

/-- Number of distinct owner ids over all pieces of type City (the JS
`Set` built by `checkVictory`). -/
def distinctCityOwnerCount (s : GameState) : Nat :=
  ((s.pieces.filter (fun p => p.type == PieceType.city)).map
    (fun p => p.ownerId)).dedup.length

/-- `GameEngine.checkVictory`. -/
def checkVictory (s : GameState) : GameState :=
  if distinctCityOwnerCount s = 1 then
    { s with gameOver := true,
             winner := ((s.pieces.filter (fun p => p.type == PieceType.city)).map
               (fun p => p.ownerId)).dedup.head? }
  else s

/-- The `{eliminated, playerId, conquerer, convertedUnits, destroyedUnits}`
record returned by `checkPlayerElimination`. -/
structure ElimOutcome where
  eliminated : Bool
  playerId : Nat
  conquerer : Nat
  converted : List (Piece × Piece)
  destroyed : List Piece
deriving DecidableEq, Repr

/-- The warriors of a player, as filtered inside `checkPlayerElimination`. -/
def warriorsOf (s : GameState) (playerId : Nat) : List Piece :=
  s.pieces.filter (fun p => p.ownerId == playerId && p.type == PieceType.warrior)

/-- The settlers of a player, as filtered inside `checkPlayerElimination`. -/
def settlersOf (s : GameState) (playerId : Nat) : List Piece :=
  s.pieces.filter (fun p => p.ownerId == playerId && p.type == PieceType.settler)

/-- The `shuffledWarriors.forEach((warrior, index) => ...)` loop of
`checkPlayerElimination`: warriors with index below the conversion count
are replaced in place by a fresh warrior of the conquerer; the rest are
destroyed.  Returns the state plus the converted pairs and destroyed
warriors in visit order. -/
def elimWarriorLoop (conquerer warriorsToConvert : Nat) :
    Nat → GameState → List Piece → GameState × List (Piece × Piece) × List Piece
  | _, t, [] => (t, [], [])
  | idx, t, w :: ws =>
    if idx < warriorsToConvert then
      let t1 := removePiece t w
      let a2 := addPiece t1 PieceType.warrior conquerer w.row w.col
      let r := elimWarriorLoop conquerer warriorsToConvert (idx + 1) a2.2 ws
      (r.1, (w, a2.1) :: r.2.1, r.2.2)
    else
      let t1 := removePiece t w
      let r := elimWarriorLoop conquerer warriorsToConvert (idx + 1) t1 ws
      (r.1, r.2.1, w :: r.2.2)

/-- `GameEngine.checkPlayerElimination`.  The random shuffle of the
warrior list is the injected `shuffle` parameter. -/
def checkPlayerElimination (s : GameState) (playerId : Nat)
    (shuffle : List Piece → List Piece) : ElimOutcome × GameState :=
  if (getPlayerCities s playerId).length = 0 then
    let conquerer := s.currentPlayerIndex
    let playerWarriors := warriorsOf s playerId
    let playerSettlers := settlersOf s playerId
    let warriorsToConvert :=
      if playerWarriors.length > 0 then max 1 (playerWarriors.length / 4) else 0
    let shuffled := shuffle playerWarriors
    let r := elimWarriorLoop conquerer warriorsToConvert 0 s shuffled
    let s2 := playerSettlers.foldl (fun t st => removePiece t st) r.1
    (⟨true, playerId, conquerer, r.2.1, r.2.2 ++ playerSettlers⟩, s2)
  else
    (⟨false, playerId, s.currentPlayerIndex, [], []⟩, s)

/-- Combat result record of `resolveCombat`. -/
structure CombatResult where
  damageDealt : Nat
  defenderDestroyed : Bool
  cityFlipped : Bool
  attackerSurvived : Bool
  elimination : Option ElimOutcome
deriving DecidableEq, Repr

/-- `GameEngine.resolveCombat`. -/
def resolveCombat (s : GameState) (attacker defender : Piece)
    (shuffle : List Piece → List Piece) : CombatResult × GameState :=
  let originalOwnerId := defender.ownerId
  let dmg := attacker.damage
  let s1 := updatePiece s defender.id (fun p => { p with hp := p.hp - (dmg : Int) })
  if defender.hp - (dmg : Int) ≤ 0 then
    if defender.type == PieceType.city then
      let s2 := updatePiece s1 defender.id (fun p =>
        { p with hp := ((p.maxHp + 2) / 3 : Nat),
                 ownerId := attacker.ownerId,
                 production := none,
                 productionProgress := 0 })
      let own3 := setCell s2.tileOwnership defender.row defender.col (some attacker.ownerId)
      let s3 := { s2 with tileOwnership := own3 }
      let er := checkPlayerElimination s3 originalOwnerId shuffle
      (⟨dmg, false, true, true, some er.1⟩, checkVictory er.2)
    else
      let s2 := removePiece s1 { defender with hp := defender.hp - (dmg : Int) }
      (⟨dmg, true, false, true, none⟩, checkVictory s2)
  else
    (⟨dmg, false, false, true, none⟩, checkVictory s1)

/-- Result record of `movePiece`. -/
structure MoveResult where
  success : Bool
  reason : Option String
  blocked : Bool
  combat : Option CombatResult
deriving DecidableEq, Repr

/-- The unconditional move block of `movePiece` (clear the old cell,
mutate the piece's position, occupy the target cell, flip tile ownership
for a warrior entering enemy-at-war territory). -/
def doMove (s : GameState) (piece : Piece) (targetRow targetCol : Int) :
    GameState :=
  let s1 := { s with board := setCell s.board piece.row piece.col none }
  let s2 := updatePiece s1 piece.id (fun p =>
    { p with row := targetRow, col := targetCol, hasMoved := true })
  let s3 := { s2 with board := setCell s2.board targetRow targetCol (some piece.id) }
  if piece.type == PieceType.warrior then
    match getCell s3.tileOwnership targetRow targetCol with
    | some tileOwner =>
      if tileOwner != piece.ownerId &&
          (relationOf s3 piece.ownerId tileOwner == some Relation.war) then
        let own4 := setCell s3.tileOwnership targetRow targetCol (some piece.ownerId)
        { s3 with tileOwnership := own4 }
      else s3
    | none => s3
  else s3

/-- `GameEngine.movePiece`. -/
def movePiece (s : GameState) (piece : Piece) (targetRow targetCol : Int)
    (shuffle : List Piece → List Piece) : MoveResult × GameState :=
  let chk := canMoveTo s piece targetRow targetCol
  if chk.valid then
    match pieceAt s targetRow targetCol with
    | some targetPiece =>
      if piece.type == PieceType.warrior then
        let cr := (resolveCombat s piece targetPiece shuffle).1
        let s1 := (resolveCombat s piece targetPiece shuffle).2
        if !cr.attackerSurvived then
          (⟨true, none, false, some cr⟩, s1)
        else if !cr.defenderDestroyed || cr.cityFlipped then
          let s2 := updatePiece s1 piece.id (fun p => { p with hasMoved := true })
          (⟨true, none, true, some cr⟩, s2)
        else
          (⟨true, none, false, some cr⟩, doMove s1 piece targetRow targetCol)
      else
        (⟨true, none, false, none⟩, doMove s piece targetRow targetCol)
    | none =>
      (⟨true, none, false, none⟩, doMove s piece targetRow targetCol)
  else
    (⟨false, chk.reason, false, none⟩, s)

/-- `GameEngine.setProduction`. -/
def setProduction (s : GameState) (city : Piece) (productionType : ProdType) :
    Bool × GameState :=
  if city.type != PieceType.city then (false, s)
  else if city.ownerId != s.currentPlayerIndex then (false, s)
  else
    (true, updatePiece s city.id (fun p =>
      { p with production := some productionType,
               productionProgress := 0,
               productionPaused := false }))

/-- `GameEngine.canSettlerBuildCity`. -/
def canSettlerBuildCity (s : GameState) (settler : Piece) : ValidCheck :=
  if settler.type != PieceType.settler then
    ⟨false, some "Not a settler"⟩
  else if getCell s.tileOwnership settler.row settler.col != some settler.ownerId then
    ⟨false, some "Must be on owned tile"⟩
  else if s.pieces.any (fun p => p.type == PieceType.city &&
      (p.row - settler.row).natAbs ≤ 1 && (p.col - settler.col).natAbs ≤ 1) then
    ⟨false, some "Too close to another city"⟩
  else ⟨true, none⟩

/-- Result record of `settlerBuildCity`. -/
structure BuildResult where
  success : Bool
  reason : Option String
deriving DecidableEq, Repr

/-- `GameEngine.settlerBuildCity`. -/
def settlerBuildCity (s : GameState) (settler : Piece) : BuildResult × GameState :=
  let chk := canSettlerBuildCity s settler
  if chk.valid then
    let s1 := removePiece s settler
    let s2 := (addPiece s1 PieceType.city settler.ownerId settler.row settler.col).2
    let own3 := setCell s2.tileOwnership settler.row settler.col (some settler.ownerId)
    let s3 := { s2 with tileOwnership := own3 }
    (⟨true, none⟩, s3)
  else
    (⟨false, chk.reason⟩, s)

/-- Write `players[i].relations[j] := rel` (mutation of one player
object's dictionary). -/
def setRelation (ps : List Player) (i j : Nat) (rel : Relation) : List Player :=
  match ps[i]? with
  | some pl =>
    ps.set i { pl with relations := fun k => if k == j then some rel else pl.relations k }
  | none => ps

/-- `GameEngine.proposePeace`. -/
def proposePeace (s : GameState) (playerId targetId : Nat) : Bool × GameState :=
  if playerId == targetId then (false, s)
  else
    (true, { s with players := setRelation s.players playerId targetId Relation.peaceProposed })

/-- `GameEngine.acceptPeace`. -/
def acceptPeace (s : GameState) (playerId targetId : Nat) : Bool × GameState :=
  if playerId == targetId then (false, s)
  else
    match s.players[targetId]? with
    | some target =>
      if target.relations playerId == some Relation.peaceProposed then
        let ps1 := setRelation s.players playerId targetId Relation.peace
        let ps2 := setRelation ps1 targetId playerId Relation.peace
        (true, { s with players := ps2 })
      else (false, s)
    | none => (false, s)

/-- The direction list used by `findAdjacentEmptyTile` and
`expandTerritory` (orthogonals first, then diagonals). -/
def adjacentDirs : List (Int × Int) :=
  [(-1, 0), (1, 0), (0, -1), (0, 1), (-1, -1), (-1, 1), (1, -1), (1, 1)]

/-- `GameEngine.findAdjacentEmptyTile`. -/
def findAdjacentEmptyTile (s : GameState) (row col : Int) : Option (Int × Int) :=
  adjacentDirs.findSome? (fun d =>
    let newRow := row + d.1
    let newCol := col + d.2
    if isValidTile newRow newCol && (getCell s.board newRow newCol).isNone then
      some (newRow, newCol)
    else none)

/-- `GameEngine.spawnUnit`.  On a blocked spawn the city's progress is
refunded by one step and production is paused. -/
def spawnUnit (s : GameState) (city : Piece) (unitType : PieceType) : GameState :=
  match findAdjacentEmptyTile s city.row city.col with
  | some rc => (addPiece s unitType city.ownerId rc.1 rc.2).2
  | none =>
    updatePiece s city.id (fun p =>
      { p with productionProgress := p.productionProgress - 1,
               productionPaused := true })

/-- `GameEngine.applyTechBonus`. -/
def applyTechBonus (s : GameState) (playerId : Nat) : GameState :=
  { s with pieces := s.pieces.map (fun p =>
      if p.ownerId == playerId then
        let p1 :=
          if p.type == PieceType.city || p.type == PieceType.warrior then
            { p with maxHp := p.maxHp + 1, hp := p.hp + 1 }
          else p
        if p.type == PieceType.warrior then { p1 with damage := p1.damage + 1 } else p1
      else p) }

/-- `GameEngine.expandTerritory`.  The random candidate pick is the
injected `choice`, taken modulo the candidate count. -/
def expandTerritory (s : GameState) (playerId : Nat) (choice : Nat) : GameState :=
  let coords : List Int := [0, 1, 2, 3, 4, 5, 6, 7, 8, 9]
  let ownedTiles : List (Int × Int) :=
    coords.flatMap (fun r => coords.filterMap (fun c =>
      if getCell s.tileOwnership r c == some playerId then some (r, c) else none))
  let candidates : List (Int × Int × Bool) :=
    ownedTiles.flatMap (fun t =>
      adjacentDirs.filterMap (fun d =>
        let newR := t.1 + d.1
        let newC := t.2 + d.2
        if isValidTile newR newC && getCell s.tileOwnership newR newC != some playerId then
          some (newR, newC, (getCell s.tileOwnership newR newC).isSome)
        else none))
  let unowned := candidates.filter (fun c => !c.2.2)
  let pool := if unowned.isEmpty then candidates else unowned
  match pool with
  | [] => s
  | c0 :: _ =>
    let chosen := pool.getD (choice % pool.length) c0
    let own1 := setCell s.tileOwnership chosen.1 chosen.2.1 (some playerId)
    let s1 := { s with tileOwnership := own1 }
    match pieceAt s1 chosen.1 chosen.2.1 with
    | some p =>
      if p.type == PieceType.city then
        updatePiece s1 p.id (fun q => { q with ownerId := playerId })
      else s1
    | none => s1

/-- The `city.hp >= city.maxHp` read of `completeProduction`'s repeat
handling, against the live registry entry. -/
def cityAtFull (t : GameState) (cid : Nat) : Bool :=
  match findPiece t cid with
  | some c1 => (c1.maxHp : Int) ≤ c1.hp
  | none => false

/-- `GameEngine.completeProduction`.  The `city` argument is the current
registry entry for the producing city (the JS object). -/
def completeProduction (s : GameState) (city : Piece) (choice : Nat) : GameState :=
  let s1 :=
    match city.production with
    | some ProdType.diplomacy => expandTerritory s city.ownerId choice
    | some ProdType.science =>
      let s' :=
        match s.players[city.ownerId]? with
        | some pl =>
          let ps' := s.players.set city.ownerId { pl with techScore := pl.techScore + 1 }
          { s with players := ps' }
        | none => s
      applyTechBonus s' city.ownerId
    | some ProdType.warrior => spawnUnit s city PieceType.warrior
    | some ProdType.settler => spawnUnit s city PieceType.settler
    | some ProdType.repair =>
      if city.hp < (city.maxHp : Int) then
        updatePiece s city.id (fun p => { p with hp := p.hp + 1 })
      else s
    | none => s
  if city.repeatProduction then
    if city.production == some ProdType.repair && cityAtFull s1 city.id then
      updatePiece s1 city.id (fun p => { p with production := none, productionProgress := 0 })
    else
      updatePiece s1 city.id (fun p => { p with productionProgress := 0 })
  else
    updatePiece s1 city.id (fun p => { p with production := none, productionProgress := 0 })

/-- `GameEngine.processProduction`. -/
def processProduction (s : GameState) (city : Piece) (choice : Nat) : GameState :=
  if city.production.isNone || city.productionPaused then
    updatePiece s city.id (fun p => { p with productionPaused := false })
  else
    let s1 := updatePiece s city.id (fun p =>
      { p with productionProgress := p.productionProgress + 1 })
    let city1 := { city with productionProgress := city.productionProgress + 1 }
    if prodTurns (city.production.getD ProdType.repair) ≤ city.productionProgress + 1 then
      completeProduction s1 city1 choice
    else s1

/-- The production-advance phase of `endTurn`: a `forEach` over the
pieces present when the loop starts, re-checking the type/ownership
condition at visit time against the live object.  `choices i` injects
the random pick for an expansion triggered while visiting piece `i`. -/
def productionStep (choices : Nat → Nat) (t : GameState) (pi : Nat × Nat) :
    GameState :=
  match findPiece t pi.2 with
  | some p =>
    if p.type == PieceType.city && p.ownerId == t.currentPlayerIndex then
      processProduction t p (choices pi.1)
    else t
  | none => t

/-- Fold of `productionStep` over the captured piece ids. -/
def productionPhase (s : GameState) (choices : Nat → Nat) : GameState :=
  ((s.pieces.map (fun p => p.id)).enum).foldl (productionStep choices) s

/-- The state just before the player-rotation loop of `endTurn`:
production advanced, then movement flags of the current player reset. -/
def preRotation (s : GameState) (choices : Nat → Nat) : GameState :=
  let s1 := productionPhase s choices
  { s1 with pieces := s1.pieces.map (fun p =>
      if p.ownerId == s1.currentPlayerIndex then { p with hasMoved := false } else p) }

/-- Exit condition of the `do { ... } while` rotation loop in `endTurn`:
the loop stops at index `i` when `i` owns a city or the game is over. -/
def rotationExit (t : GameState) (i : Nat) : Bool :=
  (getPlayerCities t i).length != 0 || t.gameOver

/-- The `do { ... } while` rotation loop, fuelled (the JS loop runs
until `rotationExit`; with fuel at least the roster size it exits at the
same index whenever any exit index exists). -/
def nextIndexAux (t : GameState) (n : Nat) : Nat → Nat → Nat
  | 0, idx => (idx + 1) % n
  | fuel + 1, idx =>
    let idx' := (idx + 1) % n
    if rotationExit t idx' then idx' else nextIndexAux t n fuel idx'

/-- `GameEngine.endTurn`. -/
def endTurn (s : GameState) (choices : Nat → Nat) : GameState :=
  let s2 := preRotation s choices
  let n := s2.players.length
  { s2 with currentPlayerIndex := nextIndexAux s2 n n s2.currentPlayerIndex,
            turnNumber := s2.turnNumber + 1 }

/-! ## Well-formedness of a game state

`Inv` is the board–registry consistency invariant of §3 of the spec:
every registered piece occupies exactly its own grid cell, and every
occupied cell points back to a registered piece at that position.
`WF` additionally records that registry ids are distinct and below the
fresh-id counter (true of every state the engine constructs, because JS
piece ids are globally unique). -/

/-- One cell of the consistency invariant. -/
def cellOk (s : GameState) (r c : Nat) : Prop :=
  match getCell s.board (r : Int) (c : Int) with
  | none => True
  | some pid => ∃ p ∈ s.pieces, p.id = pid ∧ p.row = (r : Int) ∧ p.col = (c : Int)

instance (s : GameState) (r c : Nat) : Decidable (cellOk s r c) := by
  unfold cellOk
  exact match getCell s.board (r : Int) (c : Int) with
    | none => inferInstanceAs (Decidable True)
    | some pid => List.decidableBEx _ s.pieces

/-- Board–registry consistency. -/
def StateInv (s : GameState) : Prop :=
  (∀ p ∈ s.pieces, isValidTile p.row p.col = true ∧
      getCell s.board p.row p.col = some p.id) ∧
  (∀ r < 10, ∀ c < 10, cellOk s r c)

/-- Full well-formedness: consistency plus distinct, bounded ids. -/
def WF (s : GameState) : Prop :=
  (s.pieces.map (fun p => p.id)).Nodup ∧
  (∀ p ∈ s.pieces, p.id < s.nextId) ∧
  StateInv s

instance (s : GameState) : Decidable (StateInv s) := by unfold StateInv; infer_instance

instance (s : GameState) : Decidable (WF s) := by unfold WF; infer_instance

/-! ## Concrete fixtures used by witnesses and counterexamples -/

/-- The all-empty grid. -/
def emptyBoard : Board := fun _ _ => none

/-- An empty relations dictionary. -/
def noRel : Nat → Option Relation := fun _ => none

/-- A piece with the base stats of its type (fixture). -/
def mkPiece (pid : Nat) (ty : PieceType) (owner : Nat) (r c : Int) : Piece :=
  { id := pid, type := ty, ownerId := owner, row := r, col := c,
    hp := (match ty with | .city => 4 | _ => 1),
    maxHp := (match ty with | .city => 4 | _ => 1),
    damage := (match ty with | .warrior => 1 | _ => 0), hasMoved := false,
    production := none, productionProgress := 0, productionPaused := false,
    repeatProduction := true }

/-- Grid holding exactly the given pieces at their positions (fixture). -/
def boardOf (ps : List Piece) : Board :=
  fun r c => (ps.find? (fun p => p.row == r && p.col == c)).map (fun p => p.id)

/-- Two players at war with each other (fixture). -/
def warPlayers : List Player :=
  [⟨0, fun k => if k == 1 then some Relation.war else none⟩,
   ⟨0, fun k => if k == 0 then some Relation.war else none⟩]

/-- A state fixture over the given pieces. -/
def mkState (players : List Player) (cur : Nat) (ps : List Piece)
    (own : Board) (go : Bool) : GameState :=
  { players := players, currentPlayerIndex := cur, board := boardOf ps,
    pieces := ps, tileOwnership := own, gameOver := go, winner := none,
    turnNumber := 0, nextId := 100 }

/-! ## Claim C5: the blockade rule -/

/-- State with an enemy blockade across the (0,0)–(1,1) diagonal:
warriors of player 1 at (0,1) and (1,0), a warrior of player 0 at (0,0). -/
def blkState : GameState :=
  mkState warPlayers 0
    [mkPiece 1 PieceType.warrior 0 0 0,
     mkPiece 2 PieceType.warrior 1 0 1,
     mkPiece 3 PieceType.warrior 1 1 0]
    emptyBoard false

/-- The moving warrior of `blkState`. -/
def blkMover : Piece := mkPiece 1 PieceType.warrior 0 0 0

/-- If the shared tail of `canMoveTo` reports the blockade reason, the
blockade predicate holds. -/
theorem canMoveToTail_blockade_reason (s : GameState) (piece : Piece)
    (targetRow targetCol : Int)
    (h : (canMoveToTail s piece targetRow targetCol).reason =
      some "Blocked by enemy blockade") :
    isBlockedByBlockade s piece.row piece.col targetRow targetCol piece.ownerId = true := by
  unfold canMoveToTail at h
  repeat' split at h
  all_goals simp_all

set_option maxHeartbeats 3200000 in
/-- Claim C5: for every piece and every single-step diagonal move,
the blockade rule rejects the move if and only if the two opposite
corners of the crossed 2x2 square each hold a Warrior, both warriors
share one owner, and that owner differs from the moving piece's owner;
non-single-diagonal moves are never rejected by the blockade rule, and
whenever `canMoveTo` reports the blockade reason the blockade predicate
indeed holds for the attempted step. -/
theorem c5_blockade_rule :
    (∀ (s : GameState) (fromRow fromCol toRow toCol : Int) (movingOwnerId : Nat),
      isBlockedByBlockade s fromRow fromCol toRow toCol movingOwnerId = true ↔
        ((toRow - fromRow).natAbs = 1 ∧ (toCol - fromCol).natAbs = 1 ∧
          (match pieceAt s fromRow toCol, pieceAt s toRow fromCol with
           | some piece1, some piece2 =>
             piece1.type = PieceType.warrior ∧ piece2.type = PieceType.warrior ∧
             piece1.ownerId = piece2.ownerId ∧ piece1.ownerId ≠ movingOwnerId
           | _, _ => False))) ∧
    (∀ (s : GameState) (piece : Piece) (targetRow targetCol : Int),
      (canMoveTo s piece targetRow targetCol).reason = some "Blocked by enemy blockade" →
      isBlockedByBlockade s piece.row piece.col targetRow targetCol piece.ownerId = true) := by
  constructor
  · intro s fromRow fromCol toRow toCol movingOwnerId
    unfold isBlockedByBlockade
    rcases hp1 : pieceAt s fromRow toCol with _ | piece1 <;>
      rcases hp2 : pieceAt s toRow fromCol with _ | piece2 <;>
      simp only [hp1, hp2] <;>
      split <;>
      simp_all [bne_iff_ne, beq_iff_eq]
    all_goals try tauto
    constructor
    · intro h
      exact ⟨h.1.1, h.1.2, h.2.1, by rw [h.2.1]; exact h.2.2⟩
    · intro hh
      obtain ⟨w1, w2, e, ne⟩ := hh
      exact ⟨⟨w1, w2⟩, e, by rw [← e]; exact ne⟩
  · intro s piece targetRow targetCol h
    unfold canMoveTo at h
    simp only [apply_ite ValidCheck.reason] at h
    split_ifs at h
    all_goals first
      | exact canMoveToTail_blockade_reason s piece targetRow targetCol h
      | simp_all


/-- Witness for C5: in `blkState` the blockade across (0,0)–(1,1) is in
force, both through the predicate characterization and through
`canMoveTo`'s reported reason. -/
theorem c5_blockade_rule_witness :
    (((1 : Int) - 0).natAbs = 1 ∧ ((1 : Int) - 0).natAbs = 1 ∧
      (match pieceAt blkState 0 1, pieceAt blkState 1 0 with
       | some piece1, some piece2 =>
         piece1.type = PieceType.warrior ∧ piece2.type = PieceType.warrior ∧
         piece1.ownerId = piece2.ownerId ∧ piece1.ownerId ≠ 0
       | _, _ => False)) ∧
    isBlockedByBlockade blkState blkMover.row blkMover.col 1 1 blkMover.ownerId = true :=
  ⟨(c5_blockade_rule.1 blkState 0 0 1 1 0).mp (by decide),
   c5_blockade_rule.2 blkState blkMover 1 1 (by decide)⟩

/-! ## List bookkeeping lemmas for id-keyed registries -/

/-- In a registry with distinct ids, looking a member's id up finds
exactly that member. -/
theorem find?_id_eq_some (l : List Piece) (p : Piece)
    (hn : (l.map (fun q => q.id)).Nodup) (hm : p ∈ l) :
    l.find? (fun q => q.id == p.id) = some p := by
  induction l with
  | nil => cases hm
  | cons a t ih =>
    simp only [List.map_cons, List.nodup_cons] at hn
    cases hm with
    | head => exact List.find?_cons_of_pos _ (by simp)
    | tail b hm =>
      have hne : a.id ≠ p.id := fun he =>
        hn.1 (he ▸ List.mem_map_of_mem (fun q => q.id) hm)
      rw [List.find?_cons_of_neg _ (by simpa using hne)]
      exact ih hn.2 hm

/-- Updating the entry with id `i` and looking up id `i`. -/
theorem find?_id_update_self (l : List Piece) (i : Nat) (f : Piece → Piece)
    (hf : ∀ q, (f q).id = q.id) :
    (l.map (fun q => if q.id == i then f q else q)).find? (fun q => q.id == i) =
      (l.find? (fun q => q.id == i)).map f := by
  induction l with
  | nil => simp
  | cons a t ih =>
    by_cases ha : a.id = i
    · rw [List.map_cons, if_pos (by simpa using ha),
        List.find?_cons_of_pos _ (by simp [hf, ha]),
        List.find?_cons_of_pos _ (by simpa using ha)]
      simp
    · rw [List.map_cons, if_neg (by simpa using ha),
        List.find?_cons_of_neg _ (by simpa using ha),
        List.find?_cons_of_neg _ (by simpa using ha)]
      exact ih

/-- Updating the entry with id `i` and looking up a different id `j`. -/
theorem find?_id_update_ne (l : List Piece) (i j : Nat) (f : Piece → Piece)
    (hf : ∀ q, (f q).id = q.id) (hij : j ≠ i) :
    (l.map (fun q => if q.id == i then f q else q)).find? (fun q => q.id == j) =
      l.find? (fun q => q.id == j) := by
  induction l with
  | nil => simp
  | cons a t ih =>
    by_cases ha : a.id = i
    · rw [List.map_cons, if_pos (by simpa using ha),
        List.find?_cons_of_neg _ (by simp [hf, ha]; omega),
        List.find?_cons_of_neg _ (by simp [ha]; omega)]
      exact ih
    · rw [List.map_cons, if_neg (by simpa using ha)]
      by_cases haj : a.id = j
      · rw [List.find?_cons_of_pos _ (by simpa using haj),
          List.find?_cons_of_pos _ (by simpa using haj)]
      · rw [List.find?_cons_of_neg _ (by simpa using haj),
          List.find?_cons_of_neg _ (by simpa using haj)]
        exact ih

/-- Erasing id `i` when no member carries it. -/
theorem eraseP_id_of_forall_ne (l : List Piece) (i : Nat)
    (h : ∀ p ∈ l, p.id ≠ i) : l.eraseP (fun q => q.id == i) = l := by
  induction l with
  | nil => rfl
  | cons a t ih =>
    rw [List.eraseP_cons_of_neg (by simpa using h a (List.mem_cons_self a t)),
      ih (fun p hp => h p (List.mem_cons_of_mem a hp))]

/-- A member with a different id survives erasing id `i`. -/
theorem mem_eraseP_id (l : List Piece) (p : Piece) (i : Nat)
    (hm : p ∈ l) (hne : p.id ≠ i) : p ∈ l.eraseP (fun q => q.id == i) := by
  induction l with
  | nil => cases hm
  | cons a t ih =>
    by_cases ha : a.id = i
    · rw [List.eraseP_cons_of_pos (by simpa using ha)]
      cases hm with
      | head => exact absurd ha hne
      | tail b hm => exact hm
    · rw [List.eraseP_cons_of_neg (by simpa using ha)]
      cases hm with
      | head => exact List.mem_cons_self _ _
      | tail b hm => exact List.mem_cons_of_mem a (ih hm)

/-- After erasing id `i` from a distinct-id registry no member carries
id `i` any more. -/
theorem forall_ne_of_eraseP_id (l : List Piece) (i : Nat)
    (hn : (l.map (fun q => q.id)).Nodup) :
    ∀ p ∈ l.eraseP (fun q => q.id == i), p.id ≠ i := by
  induction l with
  | nil => intro p hp; cases hp
  | cons a t ih =>
    intro p hp
    simp only [List.map_cons, List.nodup_cons] at hn
    by_cases ha : a.id = i
    · rw [List.eraseP_cons_of_pos (by simpa using ha)] at hp
      intro hpi
      exact hn.1 ((ha ▸ hpi) ▸ List.mem_map_of_mem (fun q => q.id) hp)
    · rw [List.eraseP_cons_of_neg (by simpa using ha)] at hp
      cases hp with
      | head => exact ha
      | tail b hp => exact ih hn.2 p hp

/-- Erasing id `i` leaves lookups of other ids unchanged. -/
theorem find?_eraseP_id_ne (l : List Piece) (i j : Nat) (hij : j ≠ i) :
    (l.eraseP (fun q => q.id == i)).find? (fun q => q.id == j) =
      l.find? (fun q => q.id == j) := by
  induction l with
  | nil => rfl
  | cons a t ih =>
    by_cases ha : a.id = i
    · rw [List.eraseP_cons_of_pos (by simpa using ha),
        List.find?_cons_of_neg _ (by simp [ha]; omega)]
    · rw [List.eraseP_cons_of_neg (by simpa using ha)]
      by_cases haj : a.id = j
      · rw [List.find?_cons_of_pos _ (by simpa using haj),
          List.find?_cons_of_pos _ (by simpa using haj)]
      · rw [List.find?_cons_of_neg _ (by simpa using haj),
          List.find?_cons_of_neg _ (by simpa using haj)]
        exact ih

/-- Distinct ids survive an erasure. -/
theorem nodup_ids_eraseP (l : List Piece) (g : Piece → Bool)
    (hn : (l.map (fun q => q.id)).Nodup) :
    ((l.eraseP g).map (fun q => q.id)).Nodup :=
  List.Nodup.sublist (List.Sublist.map _ (List.eraseP_sublist l)) hn

/-! ## Claim C7: rejected commands are no-ops -/

/-- State used by the C7 witness: a warrior and a settler of player 0 on
unowned tiles. -/
def noopState : GameState :=
  mkState warPlayers 0
    [mkPiece 1 PieceType.warrior 0 0 0, mkPiece 2 PieceType.settler 0 5 5]
    emptyBoard false

/-- Claim C7: whenever validation fails, `movePiece` and
`settlerBuildCity` return a failure record carrying the validator's
reason and leave the game state — board, registry, tile ownership,
players and all piece fields — exactly as it was. -/
theorem c7_rejected_commands_are_noops :
    (∀ (s : GameState) (piece : Piece) (targetRow targetCol : Int)
        (shuffle : List Piece → List Piece),
      (canMoveTo s piece targetRow targetCol).valid = false →
      movePiece s piece targetRow targetCol shuffle =
        (⟨false, (canMoveTo s piece targetRow targetCol).reason, false, none⟩, s)) ∧
    (∀ (s : GameState) (settler : Piece),
      (canSettlerBuildCity s settler).valid = false →
      settlerBuildCity s settler =
        (⟨false, (canSettlerBuildCity s settler).reason⟩, s)) := by
  constructor
  · intro s piece targetRow targetCol shuffle h
    unfold movePiece
    simp [h]
  · intro s settler h
    unfold settlerBuildCity
    simp [h]

/-- Witness for C7: an out-of-bounds move and a build on an unowned tile
are rejected and leave `noopState` untouched. -/
theorem c7_rejected_commands_are_noops_witness :
    movePiece noopState (mkPiece 1 PieceType.warrior 0 0 0) 20 0 (fun l => l) =
      (⟨false, some "Out of bounds", false, none⟩, noopState) ∧
    settlerBuildCity noopState (mkPiece 2 PieceType.settler 0 5 5) =
      (⟨false, some "Must be on owned tile"⟩, noopState) :=
  ⟨c7_rejected_commands_are_noops.1 noopState
      (mkPiece 1 PieceType.warrior 0 0 0) 20 0 (fun l => l) (by decide),
   c7_rejected_commands_are_noops.2 noopState
      (mkPiece 2 PieceType.settler 0 5 5) (by decide)⟩

/-! ## Claim C10: the setProduction guard -/

/-- Claim C10: `setProduction` refuses (returning `false` and changing
nothing) whenever the piece is not a City or is not owned by the current
player; otherwise it returns `true`, stores the requested production,
resets progress to zero and clears the paused flag. -/
theorem c10_setProduction_guard :
    (∀ (s : GameState) (city : Piece) (ty : ProdType),
      city.type ≠ PieceType.city ∨ city.ownerId ≠ s.currentPlayerIndex →
      setProduction s city ty = (false, s)) ∧
    (∀ (s : GameState) (city : Piece) (ty : ProdType),
      (s.pieces.map (fun p => p.id)).Nodup → city ∈ s.pieces →
      city.type = PieceType.city → city.ownerId = s.currentPlayerIndex →
      (setProduction s city ty).1 = true ∧
      findPiece (setProduction s city ty).2 city.id =
        some { city with production := some ty, productionProgress := 0,
                         productionPaused := false }) := by
  constructor
  · intro s city ty h
    unfold setProduction
    rcases h with h | h
    · rw [if_pos (by simpa [bne_iff_ne] using h)]
    · by_cases hc : city.type = PieceType.city
      · rw [if_neg (by simp [bne_iff_ne, hc]), if_pos (by simpa [bne_iff_ne] using h)]
      · rw [if_pos (by simpa [bne_iff_ne] using hc)]
  · intro s city ty hn hm hc ho
    unfold setProduction
    rw [if_neg (by simp [bne_iff_ne, hc]), if_neg (by simp [bne_iff_ne, ho])]
    refine ⟨rfl, ?_⟩
    unfold findPiece updatePiece
    simp only []
    rw [find?_id_update_self s.pieces city.id
        (fun p => { p with production := some ty, productionProgress := 0,
                           productionPaused := false }) (fun q => rfl),
      find?_id_eq_some s.pieces city hn hm]
    rfl

/-- State used by the C10 witness: a city of the current player and a
warrior of the other player. -/
def prodState : GameState :=
  mkState warPlayers 0
    [mkPiece 1 PieceType.city 0 0 0, mkPiece 2 PieceType.warrior 1 5 5]
    emptyBoard false

/-- Witness for C10: refusing production on a non-city and accepting it
on the current player's city. -/
theorem c10_setProduction_guard_witness :
    setProduction prodState (mkPiece 2 PieceType.warrior 1 5 5) ProdType.science =
      (false, prodState) ∧
    ((setProduction prodState (mkPiece 1 PieceType.city 0 0 0) ProdType.warrior).1 = true ∧
      findPiece (setProduction prodState (mkPiece 1 PieceType.city 0 0 0)
          ProdType.warrior).2 (mkPiece 1 PieceType.city 0 0 0).id =
        some { mkPiece 1 PieceType.city 0 0 0 with
                 production := some ProdType.warrior, productionProgress := 0,
                 productionPaused := false }) :=
  ⟨c10_setProduction_guard.1 prodState (mkPiece 2 PieceType.warrior 1 5 5)
      ProdType.science (Or.inl (by decide)),
   c10_setProduction_guard.2 prodState (mkPiece 1 PieceType.city 0 0 0)
      ProdType.warrior (by decide) (by decide) (by decide) (by decide)⟩


/-! ## Claim C6: the peace proposal protocol -/

/-- Length of the roster is unchanged by a relation write. -/
theorem setRelation_length (ps : List Player) (i j : Nat) (rel : Relation) :
    (setRelation ps i j rel).length = ps.length := by
  unfold setRelation
  cases ps[i]? <;> simp

/-- Reading back the player whose relation entry was written. -/
theorem setRelation_get_self (ps : List Player) (i j : Nat) (rel : Relation)
    (pl : Player) (h : ps[i]? = some pl) (hi : i < ps.length) :
    (setRelation ps i j rel)[i]? =
      some { pl with relations := fun k => if k == j then some rel else pl.relations k } := by
  unfold setRelation
  simp only [h]
  rw [List.getElem?_set_self (by simpa using hi)]

/-- Other players are untouched by a relation write. -/
theorem setRelation_get_ne (ps : List Player) (i j c : Nat) (rel : Relation)
    (hc : c ≠ i) : (setRelation ps i j rel)[c]? = ps[c]? := by
  unfold setRelation
  cases h : ps[i]? with
  | none => rfl
  | some pl =>
    simp only []
    rw [List.getElem?_set_ne (by omega)]

/-- Claim C6: proposing peace sets only the proposer's relation entry
toward the target to PeaceProposed, leaving the target's entry (and every
other entry and every other player) unchanged — proposing does not itself
grant peace; accepting succeeds exactly when the proposer's entry is
PeaceProposed, and then sets both entries of the pair to Peace. -/
theorem c6_peace_proposal_protocol :
    ∀ (s : GameState) (a b : Nat), a < s.players.length → b < s.players.length →
      a ≠ b →
      ((proposePeace s a b).1 = true ∧
       relOf (proposePeace s a b).2 a b = some Relation.peaceProposed ∧
       relOf (proposePeace s a b).2 b a = relOf s b a ∧
       (∀ j, j ≠ b → relOf (proposePeace s a b).2 a j = relOf s a j) ∧
       (∀ c, c ≠ a → (proposePeace s a b).2.players[c]? = s.players[c]?)) ∧
      ((acceptPeace s b a).1 = true ↔ relOf s a b = some Relation.peaceProposed) ∧
      (relOf s a b = some Relation.peaceProposed →
        relOf (acceptPeace s b a).2 a b = some Relation.peace ∧
        relOf (acceptPeace s b a).2 b a = some Relation.peace) := by
  intro s a b ha hb hab
  obtain ⟨pa, hpa⟩ : ∃ pl, s.players[a]? = some pl :=
    ⟨s.players[a], List.getElem?_eq_getElem ha⟩
  obtain ⟨pb, hpb⟩ : ∃ pl, s.players[b]? = some pl :=
    ⟨s.players[b], List.getElem?_eq_getElem hb⟩
  have hrel : relOf s a b = pa.relations b := by
    unfold relOf; rw [hpa]
  refine ⟨?_, ?_, ?_⟩
  · unfold proposePeace
    rw [if_neg (by simpa using hab)]
    refine ⟨rfl, ?_, ?_, ?_, ?_⟩
    · unfold relOf
      simp only []
      rw [setRelation_get_self s.players a b Relation.peaceProposed pa hpa ha]
      simp
    · unfold relOf
      simp only []
      rw [setRelation_get_ne s.players a b b Relation.peaceProposed (Ne.symm hab)]
    · intro j hj
      unfold relOf
      simp only []
      rw [setRelation_get_self s.players a b Relation.peaceProposed pa hpa ha, hpa]
      simp [hj]
    · intro c hc
      exact setRelation_get_ne s.players a b c Relation.peaceProposed hc
  · unfold acceptPeace
    rw [if_neg (by simpa using hab.symm)]
    simp only [hpa, hrel]
    by_cases hr : pa.relations b = some Relation.peaceProposed
    · rw [if_pos (by simpa using hr)]
      simp [hr]
    · rw [if_neg (by simpa using hr)]
      simp [hr]
  · intro hprop
    rw [hrel] at hprop
    unfold acceptPeace
    rw [if_neg (by simpa using hab.symm)]
    simp only [hpa]
    rw [if_pos (by simpa using hprop)]
    have hps1a : (setRelation s.players b a Relation.peace)[a]? = some pa := by
      rw [setRelation_get_ne s.players b a a Relation.peace hab]
      exact hpa
    have hlen1 : a < (setRelation s.players b a Relation.peace).length := by
      rw [setRelation_length]; exact ha
    constructor
    · unfold relOf
      simp only []
      rw [setRelation_get_self _ a b Relation.peace pa hps1a hlen1]
      simp
    · unfold relOf
      simp only []
      rw [setRelation_get_ne _ a b b Relation.peace (Ne.symm hab),
        setRelation_get_self s.players b a Relation.peace pb hpb hb]
      simp

/-- State used by the C6 witness: player 0 has proposed peace to player 1. -/
def c6State : GameState :=
  mkState
    [⟨0, fun k => if k == 1 then some Relation.peaceProposed else none⟩,
     ⟨0, fun k => if k == 0 then some Relation.war else none⟩]
    0 [] emptyBoard false

/-- Witness for C6: in `c6State`, proposing succeeds, accepting the
pending proposal succeeds and puts both entries at Peace. -/
theorem c6_peace_proposal_protocol_witness :
    (proposePeace c6State 0 1).1 = true ∧
    (acceptPeace c6State 1 0).1 = true ∧
    relOf (acceptPeace c6State 1 0).2 0 1 = some Relation.peace ∧
    relOf (acceptPeace c6State 1 0).2 1 0 = some Relation.peace := by
  have h := c6_peace_proposal_protocol c6State 0 1 (by decide) (by decide) (by decide)
  exact ⟨h.1.1, h.2.1.mpr (by decide), (h.2.2 (by decide)).1, (h.2.2 (by decide)).2⟩

/-! ## Claim C1: the victory flag -/

/-- Field bookkeeping: piece mutation does not touch the game-over flag. -/
theorem updatePiece_gameOver (s : GameState) (i : Nat) (f : Piece → Piece) :
    (updatePiece s i f).gameOver = s.gameOver := rfl

/-- Field bookkeeping: removal does not touch the game-over flag. -/
theorem removePiece_gameOver (s : GameState) (p : Piece) :
    (removePiece s p).gameOver = s.gameOver := rfl

/-- Field bookkeeping: piece creation does not touch the game-over flag. -/
theorem addPiece_gameOver (s : GameState) (ty : PieceType) (o : Nat) (r c : Int) :
    ((addPiece s ty o r c).2).gameOver = s.gameOver := rfl

/-- The elimination warrior loop does not touch the game-over flag. -/
theorem elimWarriorLoop_gameOver (ws : List Piece) :
    ∀ (conq tc idx : Nat) (t : GameState),
      ((elimWarriorLoop conq tc idx t ws).1).gameOver = t.gameOver := by
  induction ws with
  | nil => intro conq tc idx t; rfl
  | cons w ws ih =>
    intro conq tc idx t
    unfold elimWarriorLoop
    by_cases h : idx < tc
    · rw [if_pos h]
      simp only []
      rw [ih]
      rfl
    · rw [if_neg h]
      simp only []
      rw [ih]
      rfl

/-- Folding removals does not touch the game-over flag. -/
theorem foldl_removePiece_gameOver (l : List Piece) :
    ∀ t : GameState, (l.foldl (fun t st => removePiece t st) t).gameOver = t.gameOver := by
  induction l with
  | nil => intro t; rfl
  | cons a l ih =>
    intro t
    rw [List.foldl_cons, ih]
    rfl

/-- The elimination cascade does not touch the game-over flag. -/
theorem checkPlayerElimination_gameOver (t : GameState) (pid : Nat)
    (sh : List Piece → List Piece) :
    ((checkPlayerElimination t pid sh).2).gameOver = t.gameOver := by
  unfold checkPlayerElimination
  split
  · simp only []
    rw [foldl_removePiece_gameOver, elimWarriorLoop_gameOver]
  · rfl

/-- Spawning does not touch the game-over flag. -/
theorem spawnUnit_gameOver (s : GameState) (city : Piece) (ty : PieceType) :
    (spawnUnit s city ty).gameOver = s.gameOver := by
  unfold spawnUnit
  split <;> rfl

/-- Territory expansion does not touch the game-over flag. -/
theorem expandTerritory_gameOver (s : GameState) (pid choice : Nat) :
    (expandTerritory s pid choice).gameOver = s.gameOver := by
  unfold expandTerritory
  dsimp only
  repeat' split
  all_goals rfl

/-- Tech bonuses do not touch the game-over flag. -/
theorem applyTechBonus_gameOver (s : GameState) (pid : Nat) :
    (applyTechBonus s pid).gameOver = s.gameOver := rfl

/-- Production completion does not run any victory check: the game-over
flag is returned unchanged. -/
theorem completeProduction_gameOver (s : GameState) (city : Piece) (choice : Nat) :
    (completeProduction s city choice).gameOver = s.gameOver := by
  unfold completeProduction
  repeat' split
  all_goals first
    | rfl
    | simp [apply_ite GameState.gameOver, updatePiece_gameOver, spawnUnit_gameOver,
        expandTerritory_gameOver, applyTechBonus_gameOver]

/-- `checkVictory` leaves the piece registry unchanged. -/
theorem checkVictory_pieces (t : GameState) : (checkVictory t).pieces = t.pieces := by
  unfold checkVictory
  split <;> rfl

/-- `checkVictory` leaves the distinct-owner count unchanged. -/
theorem distinctCityOwnerCount_checkVictory (t : GameState) :
    distinctCityOwnerCount (checkVictory t) = distinctCityOwnerCount t := by
  unfold distinctCityOwnerCount
  rw [checkVictory_pieces]

/-- What `checkVictory` does to the flag: set it when the distinct
city-owner count is one, keep it otherwise. -/
theorem checkVictory_gameOver (t : GameState) (g : Bool) (hg : t.gameOver = g) :
    ((checkVictory t).gameOver = true ↔
      distinctCityOwnerCount (checkVictory t) = 1 ∨ g = true) := by
  subst hg
  rw [distinctCityOwnerCount_checkVictory]
  unfold checkVictory
  split
  · next h => simp [h]
  · next h => simp [h]

/-- Counterexample to claim C1 as stated: in `c1State`, completing the
DIPLOMACY production of player 0's city claims the tile of player 1's
last city and flips its owner, so exactly one distinct city owner
remains, yet `gameOver` stays `false` (production completion never runs
the victory check). -/
def c1City : Piece :=
  { mkPiece 1 PieceType.city 0 0 0 with
      production := some ProdType.diplomacy, productionProgress := 4 }

/-- The C1 counterexample state: player 0 owns every tile except (0,1),
which belongs to player 1 and carries player 1's only city. -/
def c1State : GameState :=
  mkState [⟨0, noRel⟩, ⟨0, noRel⟩] 0
    [c1City, mkPiece 2 PieceType.city 1 0 1]
    (fun r c => if r == 0 && c == 1 then some 1 else some 0) false

/-- Counterexample for C1: after a DIPLOMACY production completion the
set of distinct city owners has size exactly one, but `gameOver` is
still false — refuting the claimed biconditional for this command. -/
theorem c1_counterexample :
    distinctCityOwnerCount (completeProduction c1State c1City 0) = 1 ∧
    (completeProduction c1State c1City 0).gameOver = false := by
  constructor
  · decide
  · decide

/-- Claim C1 (amended): combat resolution — the only caller of
`checkVictory` — leaves `gameOver` true exactly when the distinct
city-owner count is one or the flag was already set; production
completion (including DIPLOMACY territory expansion) and city building
perform no victory check at all and return the flag unchanged, so the
flag can remain false while only one distinct city owner is left. -/
theorem c1_victory_flag :
    (∀ (s : GameState) (attacker defender : Piece) (shuffle : List Piece → List Piece),
      ((resolveCombat s attacker defender shuffle).2.gameOver = true ↔
        distinctCityOwnerCount (resolveCombat s attacker defender shuffle).2 = 1 ∨
          s.gameOver = true)) ∧
    (∀ (s : GameState) (city : Piece) (choice : Nat),
      (completeProduction s city choice).gameOver = s.gameOver) ∧
    (∀ (s : GameState) (settler : Piece),
      (settlerBuildCity s settler).2.gameOver = s.gameOver) := by
  refine ⟨?_, completeProduction_gameOver, ?_⟩
  · intro s attacker defender shuffle
    unfold resolveCombat
    simp only []
    split
    · split
      · exact checkVictory_gameOver _ _ (by
          rw [checkPlayerElimination_gameOver]
          rfl)
      · exact checkVictory_gameOver _ _ rfl
    · exact checkVictory_gameOver _ _ rfl
  · intro s settler
    unfold settlerBuildCity
    dsimp only
    split <;> rfl

/-! ## Claim C8: turn rotation -/

/-- Some player with a valid index still owns a city. -/
def CityAlive (t : GameState) : Prop :=
  ∃ p ∈ t.pieces, p.type = PieceType.city ∧ p.ownerId < t.players.length

/-- Frame facts for `spawnUnit`: roster and current player untouched. -/
theorem spawnUnit_frame (s : GameState) (city : Piece) (ty : PieceType) :
    (spawnUnit s city ty).players = s.players ∧
    (spawnUnit s city ty).currentPlayerIndex = s.currentPlayerIndex := by
  unfold spawnUnit
  split <;> exact ⟨rfl, rfl⟩

/-- Frame facts for `expandTerritory`: roster and current player
untouched. -/
theorem expandTerritory_frame (s : GameState) (pid choice : Nat) :
    (expandTerritory s pid choice).players = s.players ∧
    (expandTerritory s pid choice).currentPlayerIndex = s.currentPlayerIndex := by
  unfold expandTerritory
  dsimp only
  repeat' split
  all_goals exact ⟨rfl, rfl⟩

/-- Frame facts for `applyTechBonus`: roster and current player
untouched. -/
theorem applyTechBonus_frame (s : GameState) (pid : Nat) :
    (applyTechBonus s pid).players = s.players ∧
    (applyTechBonus s pid).currentPlayerIndex = s.currentPlayerIndex :=
  ⟨rfl, rfl⟩

/-- Frame facts for `completeProduction`: roster size, current player
and the game-over flag are untouched. -/
theorem completeProduction_frame (s : GameState) (city : Piece) (choice : Nat) :
    (completeProduction s city choice).players.length = s.players.length ∧
    (completeProduction s city choice).currentPlayerIndex = s.currentPlayerIndex := by
  unfold completeProduction
  repeat' split
  all_goals
    refine ⟨?_, ?_⟩ <;>
      simp [apply_ite (fun t : GameState => t.players.length),
        apply_ite (fun t : GameState => t.currentPlayerIndex),
        updatePiece_gameOver, (spawnUnit_frame _ _ _).1, (spawnUnit_frame _ _ _).2,
        (expandTerritory_frame _ _ _).1, (expandTerritory_frame _ _ _).2,
        (applyTechBonus_frame _ _).1, (applyTechBonus_frame _ _).2,
        List.length_set, updatePiece, spawnUnit_frame, expandTerritory_frame]

/-- Frame facts for `processProduction`. -/
theorem processProduction_frame (s : GameState) (city : Piece) (choice : Nat) :
    (processProduction s city choice).players.length = s.players.length ∧
    (processProduction s city choice).currentPlayerIndex = s.currentPlayerIndex ∧
    (processProduction s city choice).gameOver = s.gameOver := by
  unfold processProduction
  split
  · exact ⟨rfl, rfl, rfl⟩
  · split
    · exact ⟨(completeProduction_frame _ _ _).1, (completeProduction_frame _ _ _).2,
        completeProduction_gameOver _ _ _⟩
    · exact ⟨rfl, rfl, rfl⟩

/-- A piece-entry map that keeps type and owner keeps `CityAlive`. -/
theorem CityAlive_map (t : GameState) (g : Piece → Piece)
    (hty : ∀ q, (g q).type = q.type) (hown : ∀ q, (g q).ownerId = q.ownerId)
    (hpl : (({ t with pieces := t.pieces.map g } : GameState)).players = t.players)
    (h : CityAlive t) : CityAlive { t with pieces := t.pieces.map g } := by
  obtain ⟨p, hp, hty', hown'⟩ := h
  exact ⟨g p, List.mem_map_of_mem g hp, (hty p).trans hty',
    by rw [hown p]; simpa using hown'⟩

/-- `updatePiece` with a type- and owner-preserving mutation keeps
`CityAlive`. -/
theorem CityAlive_updatePiece (t : GameState) (i : Nat) (f : Piece → Piece)
    (hty : ∀ q, (f q).type = q.type) (hown : ∀ q, (f q).ownerId = q.ownerId)
    (h : CityAlive t) : CityAlive (updatePiece t i f) := by
  apply CityAlive_map t (fun q => if q.id == i then f q else q)
  · intro q; by_cases hq : q.id = i <;> simp [hq, hty]
  · intro q; by_cases hq : q.id = i <;> simp [hq, hown]
  · rfl
  · exact h

/-- `updatePiece` that rewrites the owner to a valid index keeps
`CityAlive`. -/
theorem CityAlive_updatePiece_owner (t : GameState) (i : Nat) (f : Piece → Piece)
    (hty : ∀ q, (f q).type = q.type)
    (hown : ∀ q, (f q).ownerId = q.ownerId ∨ (f q).ownerId < t.players.length)
    (h : CityAlive t) : CityAlive (updatePiece t i f) := by
  obtain ⟨p, hp, hty', hown'⟩ := h
  refine ⟨(fun q => if q.id == i then f q else q) p,
    List.mem_map_of_mem _ hp, ?_, ?_⟩
  · show (if p.id == i then f p else p).type = PieceType.city
    by_cases hq : p.id = i
    · rw [if_pos (by simpa using hq), hty p]; exact hty'
    · rw [if_neg (by simpa using hq)]; exact hty'
  · show (if p.id == i then f p else p).ownerId < t.players.length
    by_cases hq : p.id = i
    · rw [if_pos (by simpa using hq)]
      rcases hown p with he | hl
      · rw [he]; exact hown'
      · exact hl
    · rw [if_neg (by simpa using hq)]; exact hown'

/-- Appending a piece keeps `CityAlive`. -/
theorem CityAlive_addPiece (t : GameState) (ty : PieceType) (o : Nat) (r c : Int)
    (h : CityAlive t) : CityAlive (addPiece t ty o r c).2 := by
  obtain ⟨p, hp, h1, h2⟩ := h
  exact ⟨p, List.mem_append_left _ hp, h1, h2⟩

/-- `spawnUnit` keeps `CityAlive`. -/
theorem CityAlive_spawnUnit (t : GameState) (city : Piece) (ty : PieceType)
    (h : CityAlive t) : CityAlive (spawnUnit t city ty) := by
  unfold spawnUnit
  split
  · exact CityAlive_addPiece _ _ _ _ _ h
  · exact CityAlive_updatePiece _ _ _ (fun q => rfl) (fun q => rfl) h

/-- `applyTechBonus` keeps `CityAlive`. -/
theorem CityAlive_applyTechBonus (t : GameState) (pid : Nat)
    (h : CityAlive t) : CityAlive (applyTechBonus t pid) := by
  apply CityAlive_map
  · intro q
    by_cases h1 : q.ownerId = pid <;>
      by_cases h2 : q.type = PieceType.city ∨ q.type = PieceType.warrior <;>
      by_cases h3 : q.type = PieceType.warrior <;>
      simp_all
  · intro q
    by_cases h1 : q.ownerId = pid <;>
      by_cases h2 : q.type = PieceType.city ∨ q.type = PieceType.warrior <;>
      by_cases h3 : q.type = PieceType.warrior <;>
      simp_all
  · rfl
  · exact h

/-- `expandTerritory` keeps `CityAlive` when expanding for a valid
player index. -/
theorem CityAlive_expandTerritory (t : GameState) (pid choice : Nat)
    (hpid : pid < t.players.length)
    (h : CityAlive t) : CityAlive (expandTerritory t pid choice) := by
  unfold expandTerritory
  dsimp only
  repeat' split
  all_goals
    first
    | exact h
    | { obtain ⟨p, hp, h1, h2⟩ := h
        exact ⟨p, hp, h1, h2⟩ }
    | { refine CityAlive_updatePiece_owner _ _ _ ?_ ?_ ?_
        · intro q; rfl
        · intro q; exact Or.inr hpid
        · obtain ⟨p, hp, h1, h2⟩ := h
          exact ⟨p, hp, h1, h2⟩ }

/-- Roster-length transfer for a pure players replacement. -/
theorem CityAlive_setPlayers (t : GameState) (ps : List Player)
    (hlen : ps.length = t.players.length) (h : CityAlive t) :
    CityAlive { t with players := ps } := by
  obtain ⟨p, hp, h1, h2⟩ := h
  exact ⟨p, hp, h1, by
    show p.ownerId < ps.length
    rw [hlen]; exact h2⟩

set_option maxHeartbeats 1600000 in
/-- `completeProduction` keeps a valid-owner city alive. -/
theorem CityAlive_completeProduction (s : GameState) (city : Piece) (choice : Nat)
    (hown : city.ownerId < s.players.length) (h : CityAlive s) :
    CityAlive (completeProduction s city choice) := by
  unfold completeProduction
  dsimp only
  repeat' split
  all_goals
    first
    | exact CityAlive_updatePiece _ _ _ (fun q => rfl) (fun q => rfl) h
    | exact CityAlive_updatePiece _ _ _ (fun q => rfl) (fun q => rfl)
        (CityAlive_expandTerritory _ _ _ hown h)
    | exact CityAlive_updatePiece _ _ _ (fun q => rfl) (fun q => rfl)
        (CityAlive_spawnUnit _ _ _ h)
    | exact CityAlive_updatePiece _ _ _ (fun q => rfl) (fun q => rfl)
        (CityAlive_updatePiece _ _ _ (fun q => rfl) (fun q => rfl) h)
    | exact CityAlive_updatePiece _ _ _ (fun q => rfl) (fun q => rfl)
        (CityAlive_applyTechBonus _ _
          (CityAlive_setPlayers _ _ (by simp) h))

/-- `processProduction` keeps a valid-owner city alive. -/
theorem CityAlive_processProduction (s : GameState) (city : Piece) (choice : Nat)
    (hown : city.ownerId < s.players.length) (h : CityAlive s) :
    CityAlive (processProduction s city choice) := by
  unfold processProduction
  split
  · exact CityAlive_updatePiece _ _ _ (fun q => rfl) (fun q => rfl) h
  · split
    · exact CityAlive_completeProduction _ _ _ hown
        (CityAlive_updatePiece _ _ _ (fun q => rfl) (fun q => rfl) h)
    · exact CityAlive_updatePiece _ _ _ (fun q => rfl) (fun q => rfl) h

/-- One production step keeps `CityAlive` and the frame. -/
theorem productionStep_spec (choices : Nat → Nat) (t : GameState) (pi : Nat × Nat)
    (h : CityAlive t) (hcur : t.currentPlayerIndex < t.players.length) :
    CityAlive (productionStep choices t pi) ∧
    (productionStep choices t pi).players.length = t.players.length ∧
    (productionStep choices t pi).currentPlayerIndex = t.currentPlayerIndex ∧
    (productionStep choices t pi).gameOver = t.gameOver := by
  unfold productionStep
  split
  · split
    · next hcond =>
      simp only [Bool.and_eq_true, beq_iff_eq] at hcond
      refine ⟨CityAlive_processProduction _ _ _ ?_ h,
        (processProduction_frame _ _ _).1, (processProduction_frame _ _ _).2.1,
        (processProduction_frame _ _ _).2.2⟩
      rw [hcond.2]
      exact hcur
    · exact ⟨h, rfl, rfl, rfl⟩
  · exact ⟨h, rfl, rfl, rfl⟩

/-- Folding production steps keeps `CityAlive` and the frame. -/
theorem foldl_productionStep_spec (choices : Nat → Nat) (l : List (Nat × Nat)) :
    ∀ t : GameState, CityAlive t → t.currentPlayerIndex < t.players.length →
      CityAlive (l.foldl (productionStep choices) t) ∧
      (l.foldl (productionStep choices) t).players.length = t.players.length ∧
      (l.foldl (productionStep choices) t).currentPlayerIndex = t.currentPlayerIndex ∧
      (l.foldl (productionStep choices) t).gameOver = t.gameOver := by
  induction l with
  | nil => intro t h hcur; exact ⟨h, rfl, rfl, rfl⟩
  | cons a l ih =>
    intro t h hcur
    obtain ⟨h1, h2, h3, h4⟩ := productionStep_spec choices t a h hcur
    obtain ⟨g1, g2, g3, g4⟩ := ih (productionStep choices t a) h1 (by rw [h3, h2]; exact hcur)
    rw [List.foldl_cons]
    exact ⟨g1, g2.trans h2, g3.trans h3, g4.trans h4⟩

/-- `preRotation` keeps `CityAlive` and the frame. -/
theorem preRotation_spec (s : GameState) (choices : Nat → Nat)
    (h : CityAlive s) (hcur : s.currentPlayerIndex < s.players.length) :
    CityAlive (preRotation s choices) ∧
    (preRotation s choices).players.length = s.players.length ∧
    (preRotation s choices).currentPlayerIndex = s.currentPlayerIndex ∧
    (preRotation s choices).gameOver = s.gameOver := by
  obtain ⟨h1, h2, h3, h4⟩ :=
    foldl_productionStep_spec choices ((s.pieces.map (fun p => p.id)).enum) s h hcur
  unfold preRotation
  dsimp only
  refine ⟨?_, h2, h3, h4⟩
  apply CityAlive_map
  · intro q
    by_cases hq : q.ownerId = (productionPhase s choices).currentPlayerIndex <;>
      simp [hq]
  · intro q
    by_cases hq : q.ownerId = (productionPhase s choices).currentPlayerIndex <;>
      simp [hq]
  · rfl
  · exact h1

/-- A registered city makes its owner's rotation-exit condition true. -/
theorem rotationExit_of_city (t : GameState) (p : Piece)
    (hp : p ∈ t.pieces) (hc : p.type = PieceType.city) :
    rotationExit t p.ownerId = true := by
  unfold rotationExit
  have hmem : p ∈ getPlayerCities t p.ownerId := by
    unfold getPlayerCities
    exact List.mem_filter.mpr ⟨hp, by simp [hc]⟩
  have hlen : (getPlayerCities t p.ownerId).length ≠ 0 := by
    intro h0
    rw [List.length_eq_zero] at h0
    rw [h0] at hmem
    cases hmem
  simp [bne_iff_ne, hlen]

/-- From any starting index, some count of 1..n rotation steps reaches a
given valid index. -/
theorem exists_rotation_step (n j cur : Nat) (hj : j < n) :
    ∃ k, 1 ≤ k ∧ k ≤ n ∧ (cur + k) % n = j := by
  have hdm := Nat.div_add_mod cur n
  have hr : cur % n < n := Nat.mod_lt _ (by omega)
  by_cases hcase : cur % n < j
  · refine ⟨j - cur % n, by omega, by omega, ?_⟩
    have he : cur + (j - cur % n) = n * (cur / n) + j := by omega
    rw [he, Nat.mul_add_mod, Nat.mod_eq_of_lt hj]
  · refine ⟨j + n - cur % n, by omega, by omega, ?_⟩
    have he : cur + (j + n - cur % n) = n * (cur / n + 1) + j := by
      rw [Nat.mul_add, Nat.mul_one]
      omega
    rw [he, Nat.mul_add_mod, Nat.mod_eq_of_lt hj]

/-- If some index within the fuel window satisfies the exit condition,
the fuelled rotation loop stops at an index that satisfies it. -/
theorem nextIndexAux_exit (t : GameState) (n : Nat) :
    ∀ (fuel idx : Nat),
      (∃ k, 1 ≤ k ∧ k ≤ fuel ∧ rotationExit t ((idx + k) % n) = true) →
      rotationExit t (nextIndexAux t n fuel idx) = true := by
  intro fuel
  induction fuel with
  | zero =>
    intro idx h
    obtain ⟨k, h1, h2, -⟩ := h
    omega
  | succ fuel ih =>
    intro idx h
    obtain ⟨k, h1, h2, hk⟩ := h
    unfold nextIndexAux
    dsimp only
    by_cases he : rotationExit t ((idx + 1) % n) = true
    · rw [if_pos he]; exact he
    · rw [if_neg he]
      have hk1 : k ≠ 1 := by
        intro h1'
        subst h1'
        exact he hk
      apply ih
      refine ⟨k - 1, by omega, by omega, ?_⟩
      rw [Nat.mod_add_mod]
      have : idx + 1 + (k - 1) = idx + k := by omega
      rw [this]
      exact hk

/-- The C8 counterexample state: the game is already over, player 0
still holds the only city, player 1 holds none. -/
def c8State : GameState :=
  mkState [⟨0, noRel⟩, ⟨0, noRel⟩] 0 [mkPiece 1 PieceType.city 0 0 0]
    emptyBoard true

/-- Counterexample for C8 as stated: in `c8State` at least one player
owns a city, yet `endTurn` selects player 1, who owns none, while
player 0 still holds a city — because the rotation loop also exits as
soon as `gameOver` is set. -/
theorem c8_counterexample :
    (∃ p ∈ c8State.pieces, p.type = PieceType.city ∧
      p.ownerId < c8State.players.length) ∧
    (endTurn c8State (fun _ => 0)).currentPlayerIndex = 1 ∧
    (getPlayerCities (endTurn c8State (fun _ => 0)) 1).length = 0 ∧
    (getPlayerCities (endTurn c8State (fun _ => 0)) 0).length ≠ 0 :=
  ⟨⟨mkPiece 1 PieceType.city 0 0 0, by decide, by decide, by decide⟩,
   by decide, by decide, by decide⟩

/-- Claim C8 (amended): whenever some player with a valid index owns a
city, `endTurn`'s rotation loop terminates — an exit index is reached
within one roster length of steps — and, provided the game is not
already over, the selected player owns at least one city.  (When
`gameOver` is already set the loop exits after a single step regardless
of city ownership.) -/
theorem c8_endTurn_rotation (s : GameState) (choices : Nat → Nat)
    (hcur : s.currentPlayerIndex < s.players.length)
    (hcity : ∃ p ∈ s.pieces, p.type = PieceType.city ∧
      p.ownerId < s.players.length) :
    (∃ k, 1 ≤ k ∧ k ≤ (preRotation s choices).players.length ∧
      rotationExit (preRotation s choices)
        (((preRotation s choices).currentPlayerIndex + k) %
          (preRotation s choices).players.length) = true) ∧
    (s.gameOver = false →
      (getPlayerCities (endTurn s choices)
        (endTurn s choices).currentPlayerIndex).length ≠ 0) := by
  obtain ⟨hA, hlen, hcur', hgo⟩ := preRotation_spec s choices hcity hcur
  obtain ⟨p, hp, hpc, hpo⟩ := hA
  have hexit : rotationExit (preRotation s choices) p.ownerId = true :=
    rotationExit_of_city _ p hp hpc
  obtain ⟨k, hk1, hk2, hkeq⟩ :=
    exists_rotation_step (preRotation s choices).players.length p.ownerId
      (preRotation s choices).currentPlayerIndex hpo
  refine ⟨⟨k, hk1, hk2, by rw [hkeq]; exact hexit⟩, ?_⟩
  intro hg0
  have hres : rotationExit (preRotation s choices)
      (nextIndexAux (preRotation s choices) (preRotation s choices).players.length
        (preRotation s choices).players.length
        (preRotation s choices).currentPlayerIndex) = true :=
    nextIndexAux_exit _ _ _ _ ⟨k, hk1, hk2, by rw [hkeq]; exact hexit⟩
  unfold rotationExit at hres
  rw [hgo, hg0] at hres
  simp only [Bool.or_false, bne_iff_ne, ne_eq] at hres
  show (getPlayerCities (preRotation s choices)
    (nextIndexAux (preRotation s choices) (preRotation s choices).players.length
      (preRotation s choices).players.length
      (preRotation s choices).currentPlayerIndex)).length ≠ 0
  exact hres

/-- Witness for C8: in a two-player state where the game is running and
player 1 holds a city, `endTurn` terminates and hands the turn to a
city-owning player. -/
def c8LiveState : GameState :=
  mkState [⟨0, noRel⟩, ⟨0, noRel⟩] 0
    [mkPiece 1 PieceType.city 0 0 0, mkPiece 2 PieceType.city 1 5 5]
    emptyBoard false

theorem c8_endTurn_rotation_witness :
    (∃ k, 1 ≤ k ∧ k ≤ (preRotation c8LiveState (fun _ => 0)).players.length ∧
      rotationExit (preRotation c8LiveState (fun _ => 0))
        (((preRotation c8LiveState (fun _ => 0)).currentPlayerIndex + k) %
          (preRotation c8LiveState (fun _ => 0)).players.length) = true) ∧
    (getPlayerCities (endTurn c8LiveState (fun _ => 0))
      (endTurn c8LiveState (fun _ => 0)).currentPlayerIndex).length ≠ 0 := by
  have h := c8_endTurn_rotation c8LiveState (fun _ => 0) (by decide)
    ⟨mkPiece 1 PieceType.city 0 0 0, by decide, by decide, by decide⟩
  exact ⟨h.1, h.2 (by decide)⟩

/-! ## Board and registry toolbox for the combat, elimination and
consistency claims -/

/-- Reading back a freshly written cell. -/
theorem getCell_setCell_self (b : Board) (r c : Int) (v : Option Nat)
    (h : isValidTile r c = true) : getCell (setCell b r c v) r c = v := by
  unfold getCell setCell
  rw [if_pos h]
  simp

/-- Reading an untouched cell. -/
theorem getCell_setCell_ne (b : Board) (r c : Int) (v : Option Nat)
    (r' c' : Int) (h : ¬(r' = r ∧ c' = c)) :
    getCell (setCell b r c v) r' c' = getCell b r' c' := by
  unfold getCell setCell
  by_cases hv : isValidTile r' c' = true
  · rw [if_pos hv, if_pos hv]
    have hb : (r' == r && c' == c) = false := by
      by_cases h1 : r' = r
      · have h2 : ¬c' = c := fun hc => h ⟨h1, hc⟩
        simp [h2]
      · simp [h1]
    rw [hb]
    simp
  · rw [if_neg hv, if_neg hv]

/-- An in-bounds `Int` cell coordinate comes from a `Nat` below 10. -/
theorem isValidTile_toNat (R C : Int) (h : isValidTile R C = true) :
    R.toNat < 10 ∧ C.toNat < 10 ∧ (R.toNat : Int) = R ∧ (C.toNat : Int) = C := by
  unfold isValidTile BOARD_SIZE at h
  simp only [Bool.and_eq_true, decide_eq_true_eq] at h
  omega

/-- A successful cell read is in bounds. -/
theorem isValidTile_of_getCell (b : Board) (R C : Int) (pid : Nat)
    (h : getCell b R C = some pid) : isValidTile R C = true := by
  unfold getCell at h
  by_cases hv : isValidTile R C = true
  · exact hv
  · rw [if_neg hv] at h
    cases h

/-- Unfolding `cellOk` at a populated cell. -/
theorem cellOk_elim (s : GameState) (r c : Nat) (h : cellOk s r c) (pid : Nat)
    (hg : getCell s.board (r : Int) (c : Int) = some pid) :
    ∃ p ∈ s.pieces, p.id = pid ∧ p.row = (r : Int) ∧ p.col = (c : Int) := by
  unfold cellOk at h
  rw [hg] at h
  exact h

/-- Establishing `cellOk`. -/
theorem cellOk_intro (s : GameState) (r c : Nat)
    (h : ∀ pid, getCell s.board (r : Int) (c : Int) = some pid →
      ∃ p ∈ s.pieces, p.id = pid ∧ p.row = (r : Int) ∧ p.col = (c : Int)) :
    cellOk s r c := by
  unfold cellOk
  cases hg : getCell s.board (r : Int) (c : Int) with
  | none => trivial
  | some pid => exact h pid hg

/-- The registry witness behind any populated cell. -/
theorem StateInv_cell (s : GameState) (hinv : StateInv s) (R C : Int) (pid : Nat)
    (hg : getCell s.board R C = some pid) :
    ∃ p ∈ s.pieces, p.id = pid ∧ p.row = R ∧ p.col = C := by
  have hval := isValidTile_of_getCell s.board R C pid hg
  obtain ⟨h1, h2, h3, h4⟩ := isValidTile_toNat R C hval
  have hco := hinv.2 R.toNat h1 C.toNat h2
  obtain ⟨p, hp, hid, hrow, hcol⟩ :=
    cellOk_elim s R.toNat C.toNat hco pid (by rw [h3, h4]; exact hg)
  exact ⟨p, hp, hid, by rw [hrow, h3], by rw [hcol, h4]⟩

/-- Two registry members with one id are the same piece. -/
theorem id_inj (l : List Piece) (hn : (l.map (fun q => q.id)).Nodup)
    (p q : Piece) (hp : p ∈ l) (hq : q ∈ l) (hid : p.id = q.id) : p = q := by
  have h1 := find?_id_eq_some l p hn hp
  have h2 := find?_id_eq_some l q hn hq
  rw [hid] at h1
  rw [h1] at h2
  exact (Option.some.injEq _ _).mp h2

/-- The registry entry behind a `pieceAt` read, in a well-formed state:
it is registered and sits exactly at the queried cell. -/
theorem pieceAt_spec (s : GameState) (hn : (s.pieces.map (fun q => q.id)).Nodup)
    (hinv : StateInv s) (R C : Int) (d : Piece) (h : pieceAt s R C = some d) :
    d ∈ s.pieces ∧ d.row = R ∧ d.col = C ∧ getCell s.board R C = some d.id := by
  unfold pieceAt at h
  cases hg : getCell s.board R C with
  | none => rw [hg] at h; cases h
  | some pid =>
    rw [hg] at h
    have hd : d ∈ s.pieces := List.mem_of_find?_eq_some h
    have hdid : d.id = pid := by simpa using List.find?_some h
    obtain ⟨p, hp, hpid, hrow, hcol⟩ := StateInv_cell s hinv R C pid hg
    have hpd : p = d := id_inj s.pieces hn p d hp hd (by rw [hpid, hdid])
    subst hpd
    exact ⟨hd, hrow, hcol, by rw [hdid]⟩

/-- `updatePiece` with an id- and position-preserving mutation keeps
well-formedness. -/
theorem WF_updatePiece (s : GameState) (i : Nat) (f : Piece → Piece)
    (hfid : ∀ q, (f q).id = q.id) (hfrow : ∀ q, (f q).row = q.row)
    (hfcol : ∀ q, (f q).col = q.col) (h : WF s) : WF (updatePiece s i f) := by
  obtain ⟨hn, hb, hc1, hc2⟩ := h
  have hgid : ∀ q : Piece, ((if q.id == i then f q else q) : Piece).id = q.id := by
    intro q
    by_cases hq : q.id = i <;> simp [hq, hfid]
  have hgrow : ∀ q : Piece, ((if q.id == i then f q else q) : Piece).row = q.row := by
    intro q
    by_cases hq : q.id = i <;> simp [hq, hfrow]
  have hgcol : ∀ q : Piece, ((if q.id == i then f q else q) : Piece).col = q.col := by
    intro q
    by_cases hq : q.id = i <;> simp [hq, hfcol]
  refine ⟨?_, ?_, ?_, ?_⟩
  · rw [show (updatePiece s i f).pieces =
        s.pieces.map (fun q => if q.id == i then f q else q) from rfl,
      List.map_map]
    have : ((fun q : Piece => q.id) ∘ fun q => if q.id == i then f q else q) =
        (fun q : Piece => q.id) := funext fun q => hgid q
    rw [this]
    exact hn
  · intro p hp
    obtain ⟨q, hq, rfl⟩ := List.mem_map.mp hp
    rw [hgid q]
    exact hb q hq
  · intro p hp
    obtain ⟨q, hq, rfl⟩ := List.mem_map.mp hp
    rw [hgid q, hgrow q, hgcol q]
    exact hc1 q hq
  · intro r hr c hc
    apply cellOk_intro
    intro pid hg
    obtain ⟨q, hq, hqid, hqrow, hqcol⟩ := cellOk_elim s r c (hc2 r hr c hc) pid hg
    refine ⟨(fun q => if q.id == i then f q else q) q,
      List.mem_map_of_mem _ hq, ?_, ?_, ?_⟩
    · rw [hgid q]; exact hqid
    · rw [hgrow q]; exact hqrow
    · rw [hgcol q]; exact hqcol

/-- Everything `removePiece` guarantees in a well-formed state: the
registry loses exactly the named piece, its cell is cleared, all other
cells, lookups and the tile-ownership grid are untouched, and
well-formedness is preserved. -/
theorem removePiece_spec (s : GameState) (p : Piece) (hp : p ∈ s.pieces)
    (h : WF s) :
    WF (removePiece s p) ∧
    getCell (removePiece s p).board p.row p.col = none ∧
    (removePiece s p).tileOwnership = s.tileOwnership ∧
    (∀ q ∈ s.pieces, q.id ≠ p.id → q ∈ (removePiece s p).pieces) ∧
    (∀ q ∈ (removePiece s p).pieces, q ∈ s.pieces ∧ q.id ≠ p.id) ∧
    findPiece (removePiece s p) p.id = none ∧
    (∀ j, j ≠ p.id → findPiece (removePiece s p) j = findPiece s j) ∧
    (removePiece s p).pieces.length + 1 = s.pieces.length ∧
    (∀ R C : Int, ¬(R = p.row ∧ C = p.col) →
      getCell (removePiece s p).board R C = getCell s.board R C) ∧
    (removePiece s p).nextId = s.nextId := by
  obtain ⟨hn, hb, hc1, hc2⟩ := h
  have hpv := hc1 p hp
  have hmemE : ∀ q ∈ (removePiece s p).pieces, q ∈ s.pieces ∧ q.id ≠ p.id := by
    intro q hq
    exact ⟨List.mem_of_mem_eraseP hq, forall_ne_of_eraseP_id s.pieces p.id hn q hq⟩
  have hWF : WF (removePiece s p) := by
    refine ⟨nodup_ids_eraseP _ _ hn, ?_, ?_, ?_⟩
    · intro q hq
      exact hb q (List.mem_of_mem_eraseP hq)
    · intro q hq
      obtain ⟨hqs, hqne⟩ := hmemE q hq
      have hq1 := hc1 q hqs
      refine ⟨hq1.1, ?_⟩
      have hpos : ¬(q.row = p.row ∧ q.col = p.col) := by
        intro ⟨hr, hc⟩
        have : getCell s.board q.row q.col = some p.id := by
          rw [hr, hc]; exact hpv.2
        rw [hq1.2] at this
        exact hqne ((Option.some.injEq _ _).mp this)
      rw [show (removePiece s p).board = setCell s.board p.row p.col none from rfl,
        getCell_setCell_ne s.board p.row p.col none q.row q.col hpos]
      exact hq1.2
    · intro r hr c hc
      apply cellOk_intro
      intro pid hg
      by_cases hpos : (r : Int) = p.row ∧ (c : Int) = p.col
      · rw [show (removePiece s p).board = setCell s.board p.row p.col none from rfl]
          at hg
        rw [hpos.1, hpos.2, getCell_setCell_self _ _ _ _ hpv.1] at hg
        cases hg
      · rw [show (removePiece s p).board = setCell s.board p.row p.col none from rfl,
          getCell_setCell_ne s.board p.row p.col none _ _ hpos] at hg
        obtain ⟨q, hq, hqid, hqr, hqc⟩ := cellOk_elim s r c (hc2 r hr c hc) pid hg
        have hqnep : q.id ≠ p.id := by
          intro hqp
          have : q = p := id_inj s.pieces hn q p hq hp hqp
          subst this
          exact hpos ⟨hqr ▸ rfl, hqc ▸ rfl⟩
        exact ⟨q, mem_eraseP_id s.pieces q p.id hq hqnep, hqid, hqr, hqc⟩
  refine ⟨hWF, ?_, rfl, ?_, hmemE, ?_, ?_, ?_, ?_, rfl⟩
  · exact getCell_setCell_self _ _ _ _ hpv.1
  · intro q hq hqne
    exact mem_eraseP_id s.pieces q p.id hq hqne
  · exact List.find?_eq_none.mpr (fun q hq => by
      simpa using forall_ne_of_eraseP_id s.pieces p.id hn q hq)
  · intro j hj
    exact find?_eraseP_id_ne s.pieces p.id j hj
  · have hlen := @List.length_eraseP_of_mem _ s.pieces p
      (fun q => q.id == p.id) hp (by simp)
    have hpos : 0 < s.pieces.length := List.length_pos.mpr (List.ne_nil_of_mem hp)
    show (s.pieces.eraseP (fun q => q.id == p.id)).length + 1 = s.pieces.length
    omega
  · intro R C hRC
    exact getCell_setCell_ne s.board p.row p.col none R C hRC

/-- Everything `addPiece` guarantees when targeting an empty in-bounds
cell of a well-formed state. -/
theorem addPiece_spec (s : GameState) (ty : PieceType) (o : Nat) (r c : Int)
    (hv : isValidTile r c = true) (he : getCell s.board r c = none)
    (h : WF s) :
    WF (addPiece s ty o r c).2 ∧
    (addPiece s ty o r c).1 = createPiece s.players s.nextId ty o r c ∧
    (addPiece s ty o r c).1 ∈ (addPiece s ty o r c).2.pieces ∧
    (∀ q ∈ s.pieces, q ∈ (addPiece s ty o r c).2.pieces) ∧
    (∀ q ∈ (addPiece s ty o r c).2.pieces,
      q ∈ s.pieces ∨ q = (addPiece s ty o r c).1) ∧
    (addPiece s ty o r c).2.pieces.length = s.pieces.length + 1 ∧
    (addPiece s ty o r c).2.tileOwnership = s.tileOwnership ∧
    (∀ j, j ≠ s.nextId → findPiece (addPiece s ty o r c).2 j = findPiece s j) ∧
    findPiece (addPiece s ty o r c).2 s.nextId = some (addPiece s ty o r c).1 ∧
    (addPiece s ty o r c).2.nextId = s.nextId + 1 ∧
    (∀ R C : Int, ¬(R = r ∧ C = c) →
      getCell (addPiece s ty o r c).2.board R C = getCell s.board R C) ∧
    getCell (addPiece s ty o r c).2.board r c = some s.nextId := by
  obtain ⟨hn, hb, hc1, hc2⟩ := h
  have hpid : (createPiece s.players s.nextId ty o r c).id = s.nextId := rfl
  have hnotin : ∀ q ∈ s.pieces, q.id ≠ s.nextId := by
    intro q hq hqe
    have := hb q hq
    omega
  have hWF : WF (addPiece s ty o r c).2 := by
    refine ⟨?_, ?_, ?_, ?_⟩
    · show ((s.pieces ++ [createPiece s.players s.nextId ty o r c]).map
        (fun q => q.id)).Nodup
      rw [List.map_append]
      apply List.Nodup.append hn (by simp)
      intro x hx hy
      obtain ⟨q, hq, rfl⟩ := List.mem_map.mp hx
      simp only [List.map_cons, List.map_nil, List.mem_singleton] at hy
      exact hnotin q hq (hy.trans hpid)
    · intro q hq
      rcases List.mem_append.mp hq with hq | hq
      · have := hb q hq
        show q.id < s.nextId + 1
        omega
      · simp only [List.mem_singleton] at hq
        subst hq
        show s.nextId < s.nextId + 1
        omega
    · intro q hq
      rcases List.mem_append.mp hq with hq | hq
      · have hq1 := hc1 q hq
        refine ⟨hq1.1, ?_⟩
        have hpos : ¬(q.row = r ∧ q.col = c) := by
          intro ⟨hr, hc⟩
          have : getCell s.board r c = some q.id := by
            rw [← hr, ← hc]; exact hq1.2
          rw [he] at this
          cases this
        rw [show (addPiece s ty o r c).2.board =
            setCell s.board r c (some s.nextId) from rfl,
          getCell_setCell_ne s.board r c _ q.row q.col hpos]
        exact hq1.2
      · simp only [List.mem_singleton] at hq
        subst hq
        refine ⟨hv, ?_⟩
        rw [show (addPiece s ty o r c).2.board =
            setCell s.board r c (some s.nextId) from rfl]
        show getCell (setCell s.board r c (some s.nextId))
          (createPiece s.players s.nextId ty o r c).row
          (createPiece s.players s.nextId ty o r c).col = _
        rw [show (createPiece s.players s.nextId ty o r c).row = r from rfl,
          show (createPiece s.players s.nextId ty o r c).col = c from rfl,
          getCell_setCell_self _ _ _ _ hv, hpid]
    · intro rr hrr cc hcc
      apply cellOk_intro
      intro pid hg
      rw [show (addPiece s ty o r c).2.board =
          setCell s.board r c (some s.nextId) from rfl] at hg
      by_cases hpos : (rr : Int) = r ∧ (cc : Int) = c
      · rw [hpos.1, hpos.2, getCell_setCell_self _ _ _ _ hv] at hg
        refine ⟨createPiece s.players s.nextId ty o r c,
          List.mem_append_right _ (by simp), ?_, ?_, ?_⟩
        · rw [hpid]
          exact (Option.some.injEq _ _).mp hg
        · rw [show (createPiece s.players s.nextId ty o r c).row = r from rfl,
            hpos.1]
        · rw [show (createPiece s.players s.nextId ty o r c).col = c from rfl,
            hpos.2]
      · rw [getCell_setCell_ne s.board r c _ _ _ hpos] at hg
        obtain ⟨q, hq, hqid, hqr, hqc⟩ := cellOk_elim s rr cc (hc2 rr hrr cc hcc) pid hg
        exact ⟨q, List.mem_append_left _ hq, hqid, hqr, hqc⟩
  refine ⟨hWF, rfl, ?_, ?_, ?_, ?_, rfl,
    ?_, ?_, rfl, ?_, ?_⟩
  · show createPiece s.players s.nextId ty o r c ∈
      s.pieces ++ [createPiece s.players s.nextId ty o r c]
    exact List.mem_append_right _ (by simp)
  · intro q hq
    exact List.mem_append_left _ hq
  · intro q hq
    rcases List.mem_append.mp hq with hq | hq
    · exact Or.inl hq
    · simp only [List.mem_singleton] at hq
      exact Or.inr hq
  · show (s.pieces ++ [createPiece s.players s.nextId ty o r c]).length =
      s.pieces.length + 1
    simp
  · intro j hj
    show ((s.pieces ++ [createPiece s.players s.nextId ty o r c]).find?
      (fun q => q.id == j)) = _
    rw [List.find?_append]
    have hsing : ([createPiece s.players s.nextId ty o r c].find?
        (fun q => q.id == j)) = none := by
      rw [List.find?_eq_none]
      intro x hx
      simp only [List.mem_singleton] at hx
      subst hx
      simp only [beq_iff_eq]
      exact fun he' => hj ((hpid.symm.trans he').symm)
    rw [hsing, Option.or_none]
    rfl
  · show ((s.pieces ++ [createPiece s.players s.nextId ty o r c]).find?
      (fun q => q.id == s.nextId)) = _
    rw [List.find?_append]
    have h1 : (s.pieces.find? (fun q => q.id == s.nextId)) = none := by
      rw [List.find?_eq_none]
      intro x hx
      simpa using hnotin x hx
    rw [h1]
    simp
    exact ⟨hpid, rfl⟩
  · intro R C hRC
    exact getCell_setCell_ne s.board r c _ R C hRC
  · exact getCell_setCell_self _ _ _ _ hv

/-- Full characterization of the elimination warrior loop: it removes
exactly the listed warriors, replaces the first `toConvert - idx` of
them in place by fresh warriors of the conquerer, preserves every other
piece and the well-formedness invariant, and leaves the roster, current
player and tile ownership untouched. -/
theorem elimWarriorLoop_spec (conq pid toConvert : Nat) :
    ∀ (ws : List Piece) (idx : Nat) (t : GameState)
      (s' : GameState) (conv : List (Piece × Piece)) (dest : List Piece),
      elimWarriorLoop conq toConvert idx t ws = (s', conv, dest) →
      WF t →
      (∀ w ∈ ws, w ∈ t.pieces ∧ w.ownerId = pid ∧ w.type = PieceType.warrior) →
      (ws.map (fun q => q.id)).Nodup →
      WF s' ∧
      conv.length = min ws.length (toConvert - idx) ∧
      conv.length + dest.length = ws.length ∧
      s'.pieces.length + ws.length = t.pieces.length + conv.length ∧
      (∀ p ∈ t.pieces, (∀ w ∈ ws, w.id ≠ p.id) → p ∈ s'.pieces) ∧
      (∀ p ∈ s'.pieces,
        (p ∈ t.pieces ∧ (∀ w ∈ ws, w.id ≠ p.id)) ∨
        (p.ownerId = conq ∧ p.type = PieceType.warrior ∧ t.nextId ≤ p.id)) ∧
      (∀ pr ∈ conv, pr.1 ∈ ws ∧ pr.2.ownerId = conq ∧
        pr.2.type = PieceType.warrior ∧ pr.2.row = pr.1.row ∧
        pr.2.col = pr.1.col ∧ pr.2 ∈ s'.pieces) ∧
      (∀ d ∈ dest, d ∈ ws) ∧
      t.nextId ≤ s'.nextId ∧
      s'.players = t.players ∧
      s'.currentPlayerIndex = t.currentPlayerIndex ∧
      s'.tileOwnership = t.tileOwnership ∧
      (∀ j, (∀ w ∈ ws, w.id ≠ j) → j < t.nextId →
        findPiece s' j = findPiece t j) := by
  intro ws
  induction ws with
  | nil =>
    intro idx t s' conv dest heq hWF hws hwn
    unfold elimWarriorLoop at heq
    injection heq with h1 hrest
    injection hrest with h2 h3
    subst h1
    subst h2
    subst h3
    refine ⟨hWF, by simp, rfl, rfl, ?_, ?_, ?_, ?_, le_refl _, rfl, rfl, rfl, ?_⟩
    · intro p hp _
      exact hp
    · intro p hp
      exact Or.inl ⟨hp, fun w hw => absurd hw (List.not_mem_nil w)⟩
    · intro pr hpr
      cases hpr
    · intro d hd
      cases hd
    · intro j _ _
      rfl
  | cons w ws ih =>
    intro idx t s' conv dest heq hWF hws hwn
    obtain ⟨hwmem, hwown, hwty⟩ := hws w (List.mem_cons_self w ws)
    have hwv := hWF.2.2.1 w hwmem
    simp only [List.map_cons, List.nodup_cons] at hwn
    have hwsne : ∀ w' ∈ ws, w'.id ≠ w.id := by
      intro w' hw' he
      exact hwn.1 (he ▸ List.mem_map_of_mem (fun q => q.id) hw')
    obtain ⟨hWF1, hcell1, htile1, hkeep1, hchar1, hfindw1, hfind1, hlen1,
      hcells1, hnext1⟩ := removePiece_spec t w hwmem hWF
    unfold elimWarriorLoop at heq
    by_cases hidx : idx < toConvert
    · rw [if_pos hidx] at heq
      dsimp only at heq
      injection heq with h1 hrest
      injection hrest with h2 h3
      subst h1
      subst h2
      subst h3
      obtain ⟨hWF2, hnw_eq, hnwmem, hkeep2, hchar2, hlen2, htile2, hfind2,
        hfindnw, hnext2, hcells2, hcellw⟩ :=
        addPiece_spec (removePiece t w) PieceType.warrior conq w.row w.col
          hwv.1 hcell1 hWF1
      have hnwid : (addPiece (removePiece t w) PieceType.warrior conq
          w.row w.col).1.id = t.nextId := by
        rw [hnw_eq]
        show (removePiece t w).nextId = t.nextId
        exact hnext1
      have hws2 : ∀ w' ∈ ws,
          w' ∈ (addPiece (removePiece t w) PieceType.warrior conq
            w.row w.col).2.pieces ∧
          w'.ownerId = pid ∧ w'.type = PieceType.warrior := by
        intro w' hw'
        obtain ⟨hm, ho, ht⟩ := hws w' (List.mem_cons_of_mem w hw')
        exact ⟨hkeep2 w' (hkeep1 w' hm (hwsne w' hw')), ho, ht⟩
      obtain ⟨iWF, iconvlen, isplit, iplen, ikeep, ichar, ipairs, idest,
        inext, ipl, icur, itile, ifind⟩ :=
        ih (idx + 1) _ _ _ _ rfl hWF2 hws2 hwn.2
      refine ⟨iWF, ?B, ?C, ?D, ?E, ?F, ?G, ?H, ?I, ?J, ?K, ?L, ?M⟩
      case B =>
        simp only [List.length_cons, iconvlen]
        rw [Nat.min_def, Nat.min_def]
        split_ifs <;> omega
      case C =>
        simp only [List.length_cons]
        rw [Nat.add_right_comm, isplit]
      case D =>
        simp only [List.length_cons]
        rw [← Nat.add_assoc, iplen, hlen2, hlen1, Nat.add_assoc]
      case E =>
        intro p hp hall
        refine ikeep p (hkeep2 p (hkeep1 p hp ?_))
          (fun w' hw' => hall w' (List.mem_cons_of_mem w hw'))
        exact fun he => hall w (List.mem_cons_self w ws) he.symm
      case F =>
        intro p hp
        rcases ichar p hp with ⟨hpt2, hpnot⟩ | ⟨ho, ht, hn⟩
        · rcases hchar2 p hpt2 with hpt1 | hpnw
          · obtain ⟨hpt, hpne⟩ := hchar1 p hpt1
            refine Or.inl ⟨hpt, ?_⟩
            intro w'' hw''
            rcases List.mem_cons.mp hw'' with rfl | hw''
            · exact fun he => hpne he.symm
            · exact hpnot w'' hw''
          · subst hpnw
            refine Or.inr ⟨?_, ?_, ?_⟩
            · rw [hnw_eq]
              rfl
            · rw [hnw_eq]
              rfl
            · rw [hnwid]
        · refine Or.inr ⟨ho, ht, ?_⟩
          have hx : (addPiece (removePiece t w) PieceType.warrior conq
              w.row w.col).2.nextId = (removePiece t w).nextId + 1 := hnext2
          omega
      case G =>
        intro pr hpr
        rcases List.mem_cons.mp hpr with rfl | hpr'
        · refine ⟨List.mem_cons_self w ws, ?_, ?_, ?_, ?_, ?_⟩
          · rw [hnw_eq]
            rfl
          · rw [hnw_eq]
            rfl
          · rw [hnw_eq]
            rfl
          · rw [hnw_eq]
            rfl
          · refine ikeep _ hnwmem ?_
            intro w' hw' he
            have hb' := hWF.2.1 w' (hws w' (List.mem_cons_of_mem w hw')).1
            rw [hnwid] at he
            omega
        · obtain ⟨hm, h2, h3, h4, h5, h6⟩ := ipairs pr hpr'
          exact ⟨List.mem_cons_of_mem w hm, h2, h3, h4, h5, h6⟩
      case H =>
        intro d hd
        exact List.mem_cons_of_mem w (idest d hd)
      case I =>
        have hx : (addPiece (removePiece t w) PieceType.warrior conq
            w.row w.col).2.nextId = (removePiece t w).nextId + 1 := hnext2
        omega
      case J =>
        rw [ipl]
        rfl
      case K =>
        rw [icur]
        rfl
      case L =>
        rw [itile, htile2, htile1]
      case M =>
        intro j hj hb'
        have hx : (addPiece (removePiece t w) PieceType.warrior conq
            w.row w.col).2.nextId = (removePiece t w).nextId + 1 := hnext2
        rw [ifind j (fun w' hw' => hj w' (List.mem_cons_of_mem w hw'))
            (by omega),
          hfind2 j (by omega),
          hfind1 j (fun he => hj w (List.mem_cons_self w ws) he.symm)]
    · rw [if_neg hidx] at heq
      dsimp only at heq
      injection heq with h1 hrest
      injection hrest with h2 h3
      subst h1
      subst h2
      subst h3
      have hws1 : ∀ w' ∈ ws,
          w' ∈ (removePiece t w).pieces ∧
          w'.ownerId = pid ∧ w'.type = PieceType.warrior := by
        intro w' hw'
        obtain ⟨hm, ho, ht⟩ := hws w' (List.mem_cons_of_mem w hw')
        exact ⟨hkeep1 w' hm (hwsne w' hw'), ho, ht⟩
      obtain ⟨iWF, iconvlen, isplit, iplen, ikeep, ichar, ipairs, idest,
        inext, ipl, icur, itile, ifind⟩ :=
        ih (idx + 1) _ _ _ _ rfl hWF1 hws1 hwn.2
      refine ⟨iWF, ?B, ?C, ?D, ?E, ?F, ?G, ?H, ?I, ?J, ?K, ?L, ?M⟩
      case B =>
        simp only [List.length_cons, iconvlen]
        rw [Nat.min_def, Nat.min_def]
        split_ifs <;> omega
      case C =>
        simp only [List.length_cons]
        rw [← Nat.add_assoc, isplit]
      case D =>
        simp only [List.length_cons]
        rw [← Nat.add_assoc, iplen, ← hlen1, Nat.add_right_comm]
      case E =>
        intro p hp hall
        refine ikeep p (hkeep1 p hp ?_)
          (fun w' hw' => hall w' (List.mem_cons_of_mem w hw'))
        exact fun he => hall w (List.mem_cons_self w ws) he.symm
      case F =>
        intro p hp
        rcases ichar p hp with ⟨hpt1, hpnot⟩ | ⟨ho, ht, hn⟩
        · obtain ⟨hpt, hpne⟩ := hchar1 p hpt1
          refine Or.inl ⟨hpt, ?_⟩
          intro w'' hw''
          rcases List.mem_cons.mp hw'' with rfl | hw''
          · exact fun he => hpne he.symm
          · exact hpnot w'' hw''
        · refine Or.inr ⟨ho, ht, ?_⟩
          omega
      case G =>
        intro pr hpr
        obtain ⟨hm, h2, h3, h4, h5, h6⟩ := ipairs pr hpr
        exact ⟨List.mem_cons_of_mem w hm, h2, h3, h4, h5, h6⟩
      case H =>
        intro d hd
        rcases List.mem_cons.mp hd with rfl | hd'
        · exact List.mem_cons_self d ws
        · exact List.mem_cons_of_mem w (idest d hd')
      case I =>
        omega
      case J =>
        rw [ipl]
        rfl
      case K =>
        rw [icur]
        rfl
      case L =>
        rw [itile, htile1]
      case M =>
        intro j hj hb'
        rw [ifind j (fun w' hw' => hj w' (List.mem_cons_of_mem w hw'))
            (by omega),
          hfind1 j (fun he => hj w (List.mem_cons_self w ws) he.symm)]

/-- Folding `removePiece` over a duplicate-free list of registered
pieces (the `playerSettlers.forEach` loop of `checkPlayerElimination`)
removes exactly those pieces and preserves everything else. -/
theorem removeList_spec :
    ∀ (sts : List Piece) (t : GameState),
      WF t →
      (∀ q ∈ sts, q ∈ t.pieces) →
      (sts.map (fun q => q.id)).Nodup →
      WF (sts.foldl (fun a st => removePiece a st) t) ∧
      (sts.foldl (fun a st => removePiece a st) t).pieces.length + sts.length
        = t.pieces.length ∧
      (∀ p ∈ t.pieces, (∀ q ∈ sts, q.id ≠ p.id) →
        p ∈ (sts.foldl (fun a st => removePiece a st) t).pieces) ∧
      (∀ p ∈ (sts.foldl (fun a st => removePiece a st) t).pieces,
        p ∈ t.pieces ∧ ∀ q ∈ sts, q.id ≠ p.id) ∧
      (sts.foldl (fun a st => removePiece a st) t).players = t.players ∧
      (sts.foldl (fun a st => removePiece a st) t).currentPlayerIndex
        = t.currentPlayerIndex ∧
      (sts.foldl (fun a st => removePiece a st) t).tileOwnership
        = t.tileOwnership ∧
      (sts.foldl (fun a st => removePiece a st) t).nextId = t.nextId ∧
      (∀ j, (∀ q ∈ sts, q.id ≠ j) →
        findPiece (sts.foldl (fun a st => removePiece a st) t) j
          = findPiece t j) := by
  intro sts
  induction sts with
  | nil =>
    intro t hWF hmem hnd
    refine ⟨hWF, rfl, ?_, ?_, rfl, rfl, rfl, rfl, ?_⟩
    · intro p hp _
      exact hp
    · intro p hp
      exact ⟨hp, fun q hq => absurd hq (List.not_mem_nil q)⟩
    · intro j _
      rfl
  | cons st sts ih =>
    intro t hWF hmem hnd
    simp only [List.map_cons, List.nodup_cons] at hnd
    have hstsne : ∀ q ∈ sts, q.id ≠ st.id := by
      intro q hq he
      exact hnd.1 (he ▸ List.mem_map_of_mem (fun q => q.id) hq)
    have hst := hmem st (List.mem_cons_self st sts)
    obtain ⟨hWF1, hcell1, htile1, hkeep1, hchar1, hfindw1, hfind1, hlen1,
      hcells1, hnext1⟩ := removePiece_spec t st hst hWF
    have hmem1 : ∀ q ∈ sts, q ∈ (removePiece t st).pieces := by
      intro q hq
      exact hkeep1 q (hmem q (List.mem_cons_of_mem st hq)) (hstsne q hq)
    obtain ⟨iWF, ilen, ikeep, ichar, ipl, icur, itile, inext, ifind⟩ :=
      ih (removePiece t st) hWF1 hmem1 hnd.2
    have hfold : (st :: sts).foldl (fun a q => removePiece a q) t
        = sts.foldl (fun a q => removePiece a q) (removePiece t st) := rfl
    rw [hfold]
    refine ⟨iWF, ?_, ?_, ?_, ?_, ?_, ?_, ?_, ?_⟩
    · simp only [List.length_cons]
      rw [← Nat.add_assoc, ilen, hlen1]
    · intro p hp hall
      exact ikeep p
        (hkeep1 p hp (fun he => hall st (List.mem_cons_self st sts) he.symm))
        (fun q hq => hall q (List.mem_cons_of_mem st hq))
    · intro p hp
      obtain ⟨hp1, hpn⟩ := ichar p hp
      obtain ⟨hpt, hpne⟩ := hchar1 p hp1
      refine ⟨hpt, ?_⟩
      intro q hq
      rcases List.mem_cons.mp hq with rfl | hq'
      · exact fun he => hpne he.symm
      · exact hpn q hq'
    · rw [ipl]
      rfl
    · rw [icur]
      rfl
    · rw [itile, htile1]
    · rw [inext, hnext1]
    · intro j hj
      rw [ifind j (fun q hq => hj q (List.mem_cons_of_mem st hq)),
        hfind1 j (fun he => hj st (List.mem_cons_self st sts) he.symm)]

/-! ## Claim C2: the elimination cascade -/

set_option maxHeartbeats 1600000 in
/-- Claim C2: for a player with W warriors and S settlers whose city
count is zero, `checkPlayerElimination` converts exactly
`max 1 (W / 4)` warriors (0 when W = 0) to the conquering player — each
conversion pairs the original warrior with a fresh conqueror-owned
Warrior at the same (row, col) that lives in the final registry — the
remaining warriors and all S settlers are destroyed, no piece owned by
the eliminated player survives, the total piece count is conserved up
to the convert/destroy split, and pieces of other players are kept. -/
theorem c2_elimination_cascade (s : GameState) (pid : Nat)
    (shuffle : List Piece → List Piece)
    (hWF : WF s)
    (hcit : (getPlayerCities s pid).length = 0)
    (hconq : s.currentPlayerIndex ≠ pid)
    (hperm : (shuffle (warriorsOf s pid)).Perm (warriorsOf s pid)) :
    (checkPlayerElimination s pid shuffle).1.eliminated = true ∧
    (checkPlayerElimination s pid shuffle).1.converted.length =
      (if (warriorsOf s pid).length > 0
        then max 1 ((warriorsOf s pid).length / 4) else 0) ∧
    (checkPlayerElimination s pid shuffle).1.destroyed.length =
      ((warriorsOf s pid).length -
        (checkPlayerElimination s pid shuffle).1.converted.length) +
      (settlersOf s pid).length ∧
    (∀ pr ∈ (checkPlayerElimination s pid shuffle).1.converted,
      pr.1 ∈ warriorsOf s pid ∧
      pr.2.ownerId = s.currentPlayerIndex ∧
      pr.2.type = PieceType.warrior ∧
      pr.2.row = pr.1.row ∧ pr.2.col = pr.1.col ∧
      pr.2 ∈ (checkPlayerElimination s pid shuffle).2.pieces) ∧
    (∀ p ∈ (checkPlayerElimination s pid shuffle).2.pieces,
      p.ownerId ≠ pid) ∧
    (checkPlayerElimination s pid shuffle).2.pieces.length +
        (warriorsOf s pid).length + (settlersOf s pid).length =
      s.pieces.length +
        (checkPlayerElimination s pid shuffle).1.converted.length ∧
    (∀ p ∈ s.pieces, p.ownerId ≠ pid →
      p ∈ (checkPlayerElimination s pid shuffle).2.pieces) ∧
    WF (checkPlayerElimination s pid shuffle).2 := by
  have hnd0 : ((warriorsOf s pid).map (fun q => q.id)).Nodup := by
    have hsub : ((warriorsOf s pid).map (fun q => q.id)).Sublist
        (s.pieces.map (fun q => q.id)) :=
      (List.filter_sublist s.pieces).map (fun q => q.id)
    exact List.Nodup.sublist hsub hWF.1
  have hndsh : ((shuffle (warriorsOf s pid)).map (fun q => q.id)).Nodup :=
    ((hperm.map (fun q => q.id)).nodup_iff).mpr hnd0
  have hndsett : ((settlersOf s pid).map (fun q => q.id)).Nodup := by
    have hsub : ((settlersOf s pid).map (fun q => q.id)).Sublist
        (s.pieces.map (fun q => q.id)) :=
      (List.filter_sublist s.pieces).map (fun q => q.id)
    exact List.Nodup.sublist hsub hWF.1
  have hwarr : ∀ w ∈ shuffle (warriorsOf s pid),
      w ∈ s.pieces ∧ w.ownerId = pid ∧ w.type = PieceType.warrior := by
    intro w hw
    have hf := List.mem_filter.mp (hperm.mem_iff.mp hw)
    have hb : w.ownerId = pid ∧ w.type = PieceType.warrior := by
      have hx := hf.2
      simp only [Bool.and_eq_true, beq_iff_eq] at hx
      exact hx
    exact ⟨hf.1, hb.1, hb.2⟩
  have hwarr2 : ∀ p ∈ s.pieces, p.ownerId = pid →
      p.type = PieceType.warrior → p ∈ shuffle (warriorsOf s pid) := by
    intro p hp ho ht
    refine hperm.mem_iff.mpr (List.mem_filter.mpr ⟨hp, ?_⟩)
    simp only [Bool.and_eq_true, beq_iff_eq]
    exact ⟨ho, ht⟩
  have hsettmemS : ∀ q ∈ settlersOf s pid,
      q ∈ s.pieces ∧ q.ownerId = pid ∧ q.type = PieceType.settler := by
    intro q hq
    have hf := List.mem_filter.mp hq
    have hb : q.ownerId = pid ∧ q.type = PieceType.settler := by
      have hx := hf.2
      simp only [Bool.and_eq_true, beq_iff_eq] at hx
      exact hx
    exact ⟨hf.1, hb.1, hb.2⟩
  have hsett2 : ∀ p ∈ s.pieces, p.ownerId = pid →
      p.type = PieceType.settler → p ∈ settlersOf s pid := by
    intro p hp ho ht
    refine List.mem_filter.mpr ⟨hp, ?_⟩
    simp only [Bool.and_eq_true, beq_iff_eq]
    exact ⟨ho, ht⟩
  have hnocity : ∀ p ∈ s.pieces, p.ownerId = pid →
      p.type = PieceType.city → False := by
    intro p hp ho hc
    have hmem : p ∈ getPlayerCities s pid := by
      refine List.mem_filter.mpr ⟨hp, ?_⟩
      simp only [Bool.and_eq_true, beq_iff_eq]
      exact ⟨hc, ho⟩
    rw [List.length_eq_zero] at hcit
    rw [hcit] at hmem
    exact absurd hmem (List.not_mem_nil p)
  have htc : (if (warriorsOf s pid).length > 0
      then max 1 ((warriorsOf s pid).length / 4) else 0)
      ≤ (warriorsOf s pid).length := by
    split_ifs with h
    · exact max_le h (Nat.div_le_self _ _)
    · exact Nat.zero_le _
  unfold checkPlayerElimination
  rw [if_pos hcit]
  dsimp only
  obtain ⟨iWF, iconvlen, isplit, iplen, ikeep, ichar, ipairs, idest, inext,
    ipl, icur, itile, ifind⟩ :=
    elimWarriorLoop_spec s.currentPlayerIndex pid
      (if (warriorsOf s pid).length > 0
        then max 1 ((warriorsOf s pid).length / 4) else 0)
      (shuffle (warriorsOf s pid)) 0 s _ _ _ rfl hWF hwarr hndsh
  have hwsetne : ∀ q ∈ settlersOf s pid,
      ∀ w ∈ shuffle (warriorsOf s pid), w.id ≠ q.id := by
    intro q hq w hw he
    obtain ⟨hqs, hqo, hqt⟩ := hsettmemS q hq
    obtain ⟨hws', hwo, hwt⟩ := hwarr w hw
    have hwq := id_inj s.pieces hWF.1 w q hws' hqs he
    rw [hwq, hqt] at hwt
    exact absurd hwt (by decide)
  have hsettE : ∀ q ∈ settlersOf s pid,
      q ∈ (elimWarriorLoop s.currentPlayerIndex
        (if (warriorsOf s pid).length > 0
          then max 1 ((warriorsOf s pid).length / 4) else 0) 0 s
        (shuffle (warriorsOf s pid))).1.pieces :=
    fun q hq => ikeep q (hsettmemS q hq).1 (fun w hw => hwsetne q hq w hw)
  obtain ⟨jWF, jlen, jkeep, jchar, jpl, jcur, jtile, jnext, jfind⟩ :=
    removeList_spec (settlersOf s pid) _ iWF hsettE hndsett
  refine ⟨rfl, ?B, ?C, ?D, ?E, ?F, ?G, ?H⟩
  case B =>
    rw [iconvlen, Nat.sub_zero, hperm.length_eq]
    exact Nat.min_eq_right htc
  case C =>
    rw [List.length_append]
    have hlenW := hperm.length_eq
    revert isplit
    generalize (elimWarriorLoop s.currentPlayerIndex
        (if (warriorsOf s pid).length > 0
          then max 1 ((warriorsOf s pid).length / 4) else 0) 0 s
        (shuffle (warriorsOf s pid))).2.1.length = g
    generalize (elimWarriorLoop s.currentPlayerIndex
        (if (warriorsOf s pid).length > 0
          then max 1 ((warriorsOf s pid).length / 4) else 0) 0 s
        (shuffle (warriorsOf s pid))).2.2.length = f
    intro isplit
    rw [hlenW] at isplit
    rw [← isplit, Nat.add_sub_cancel_left]
  case D =>
    intro pr hpr
    obtain ⟨hm, ho, ht, hr, hc, hmem⟩ := ipairs pr hpr
    refine ⟨hperm.mem_iff.mp hm, ho, ht, hr, hc, ?_⟩
    refine jkeep pr.2 hmem ?_
    intro q hq he
    have hq2 := id_inj _ iWF.1 q pr.2 (hsettE q hq) hmem he
    have hqt := (hsettmemS q hq).2.2
    rw [hq2, ht] at hqt
    exact absurd hqt (by decide)
  case E =>
    intro p hp hpo
    obtain ⟨hpE, hpns⟩ := jchar p hp
    rcases ichar p hpE with ⟨hps, hpnw⟩ | ⟨ho, ht, hn⟩
    · cases hty : p.type
      case city => exact hnocity p hps hpo hty
      case warrior => exact hpnw p (hwarr2 p hps hpo hty) rfl
      case settler => exact hpns p (hsett2 p hps hpo hty) rfl
    · exact hconq (ho.symm.trans hpo)
  case F =>
    have hlenW := hperm.length_eq
    revert jlen iplen
    generalize (List.foldl (fun a st => removePiece a st)
        (elimWarriorLoop s.currentPlayerIndex
          (if (warriorsOf s pid).length > 0
            then max 1 ((warriorsOf s pid).length / 4) else 0) 0 s
          (shuffle (warriorsOf s pid))).1
        (settlersOf s pid)).pieces.length = b
    generalize (elimWarriorLoop s.currentPlayerIndex
        (if (warriorsOf s pid).length > 0
          then max 1 ((warriorsOf s pid).length / 4) else 0) 0 s
        (shuffle (warriorsOf s pid))).1.pieces.length = e1
    generalize (elimWarriorLoop s.currentPlayerIndex
        (if (warriorsOf s pid).length > 0
          then max 1 ((warriorsOf s pid).length / 4) else 0) 0 s
        (shuffle (warriorsOf s pid))).2.1.length = g
    intro iplen jlen
    rw [hlenW] at iplen
    rw [Nat.add_right_comm, jlen, iplen]
  case G =>
    intro p hp hpo
    refine jkeep p (ikeep p hp ?_) ?_
    · intro w hw he
      have hwp := id_inj s.pieces hWF.1 w p (hwarr w hw).1 hp he
      exact hpo (hwp ▸ (hwarr w hw).2.1)
    · intro q hq he
      have hqp := id_inj s.pieces hWF.1 q p (hsettmemS q hq).1 hp he
      exact hpo (hqp ▸ (hsettmemS q hq).2.1)
  case H =>
    exact jWF

/-- Witness state for C2: player 1 has two warriors and a settler but no
city; player 0 (the current player) holds the only city. -/
def c2State : GameState :=
  mkState warPlayers 0
    [mkPiece 1 PieceType.city 0 0 0,
     mkPiece 2 PieceType.warrior 1 2 2,
     mkPiece 3 PieceType.warrior 1 3 3,
     mkPiece 4 PieceType.settler 1 4 4]
    emptyBoard false

/-- The hypotheses of `c2_elimination_cascade` hold at `c2State`, and
the cascade indeed reports the player eliminated there. -/
theorem c2_elimination_cascade_witness :
    WF c2State ∧ (getPlayerCities c2State 1).length = 0 ∧
    c2State.currentPlayerIndex ≠ 1 ∧
    (checkPlayerElimination c2State 1 (fun l => l)).1.eliminated = true :=
  ⟨by decide, by decide, by decide,
    (c2_elimination_cascade c2State 1 (fun l => l) (by decide) (by decide)
      (by decide) (List.Perm.refl _)).1⟩

/-- `checkVictory` does not touch the piece registry. -/
theorem checkVictory_findPiece (t : GameState) (j : Nat) :
    findPiece (checkVictory t) j = findPiece t j := by
  unfold findPiece
  rw [checkVictory_pieces]

/-- `checkVictory` does not touch tile ownership. -/
theorem checkVictory_tileOwnership (t : GameState) :
    (checkVictory t).tileOwnership = t.tileOwnership := by
  unfold checkVictory
  split <;> rfl

/-- `checkVictory` preserves well-formedness. -/
theorem WF_checkVictory (t : GameState) (h : WF t) : WF (checkVictory t) := by
  unfold checkVictory
  split
  · exact h
  · exact h

/-- Looking up the updated id finds the mutated piece. -/
theorem findPiece_updatePiece_self (s : GameState) (i : Nat) (f : Piece → Piece)
    (hf : ∀ q, (f q).id = q.id) :
    findPiece (updatePiece s i f) i = (findPiece s i).map f :=
  find?_id_update_self s.pieces i f hf

/-- Looking up any other id is unaffected by `updatePiece`. -/
theorem findPiece_updatePiece_ne (s : GameState) (i j : Nat) (f : Piece → Piece)
    (hf : ∀ q, (f q).id = q.id) (hij : j ≠ i) :
    findPiece (updatePiece s i f) j = findPiece s j :=
  find?_id_update_ne s.pieces i j f hf hij

set_option maxHeartbeats 1600000 in
/-- `checkPlayerElimination` preserves well-formedness, the roster, the
current player, tile ownership, and the registry entry of every piece
not owned by the examined player. -/
theorem checkPlayerElimination_frame (s : GameState) (pid : Nat)
    (shuffle : List Piece → List Piece) (hWF : WF s)
    (hperm : (shuffle (warriorsOf s pid)).Perm (warriorsOf s pid)) :
    WF (checkPlayerElimination s pid shuffle).2 ∧
    (checkPlayerElimination s pid shuffle).2.players = s.players ∧
    (checkPlayerElimination s pid shuffle).2.currentPlayerIndex
      = s.currentPlayerIndex ∧
    (checkPlayerElimination s pid shuffle).2.tileOwnership
      = s.tileOwnership ∧
    ∀ p ∈ s.pieces, p.ownerId ≠ pid →
      findPiece (checkPlayerElimination s pid shuffle).2 p.id
        = findPiece s p.id := by
  by_cases hc : (getPlayerCities s pid).length = 0
  case neg =>
    unfold checkPlayerElimination
    rw [if_neg hc]
    exact ⟨hWF, rfl, rfl, rfl, fun p hp hpo => rfl⟩
  case pos =>
    have hndsh : ((shuffle (warriorsOf s pid)).map (fun q => q.id)).Nodup := by
      have hsub : ((warriorsOf s pid).map (fun q => q.id)).Sublist
          (s.pieces.map (fun q => q.id)) :=
        (List.filter_sublist s.pieces).map (fun q => q.id)
      exact ((hperm.map (fun q => q.id)).nodup_iff).mpr
        (List.Nodup.sublist hsub hWF.1)
    have hndsett : ((settlersOf s pid).map (fun q => q.id)).Nodup := by
      have hsub : ((settlersOf s pid).map (fun q => q.id)).Sublist
          (s.pieces.map (fun q => q.id)) :=
        (List.filter_sublist s.pieces).map (fun q => q.id)
      exact List.Nodup.sublist hsub hWF.1
    have hwarr : ∀ w ∈ shuffle (warriorsOf s pid),
        w ∈ s.pieces ∧ w.ownerId = pid ∧ w.type = PieceType.warrior := by
      intro w hw
      have hf := List.mem_filter.mp (hperm.mem_iff.mp hw)
      have hb : w.ownerId = pid ∧ w.type = PieceType.warrior := by
        have hx := hf.2
        simp only [Bool.and_eq_true, beq_iff_eq] at hx
        exact hx
      exact ⟨hf.1, hb.1, hb.2⟩
    have hsettmemS : ∀ q ∈ settlersOf s pid,
        q ∈ s.pieces ∧ q.ownerId = pid ∧ q.type = PieceType.settler := by
      intro q hq
      have hf := List.mem_filter.mp hq
      have hb : q.ownerId = pid ∧ q.type = PieceType.settler := by
        have hx := hf.2
        simp only [Bool.and_eq_true, beq_iff_eq] at hx
        exact hx
      exact ⟨hf.1, hb.1, hb.2⟩
    unfold checkPlayerElimination
    rw [if_pos hc]
    dsimp only
    obtain ⟨iWF, iconvlen, isplit, iplen, ikeep, ichar, ipairs, idest, inext,
      ipl, icur, itile, ifind⟩ :=
      elimWarriorLoop_spec s.currentPlayerIndex pid
        (if (warriorsOf s pid).length > 0
          then max 1 ((warriorsOf s pid).length / 4) else 0)
        (shuffle (warriorsOf s pid)) 0 s _ _ _ rfl hWF hwarr hndsh
    have hwsetne : ∀ q ∈ settlersOf s pid,
        ∀ w ∈ shuffle (warriorsOf s pid), w.id ≠ q.id := by
      intro q hq w hw he
      obtain ⟨hqs, hqo, hqt⟩ := hsettmemS q hq
      obtain ⟨hws', hwo, hwt⟩ := hwarr w hw
      have hwq := id_inj s.pieces hWF.1 w q hws' hqs he
      rw [hwq, hqt] at hwt
      exact absurd hwt (by decide)
    have hsettE : ∀ q ∈ settlersOf s pid,
        q ∈ (elimWarriorLoop s.currentPlayerIndex
          (if (warriorsOf s pid).length > 0
            then max 1 ((warriorsOf s pid).length / 4) else 0) 0 s
          (shuffle (warriorsOf s pid))).1.pieces :=
      fun q hq => ikeep q (hsettmemS q hq).1 (fun w hw => hwsetne q hq w hw)
    obtain ⟨jWF, jlen, jkeep, jchar, jpl, jcur, jtile, jnext, jfind⟩ :=
      removeList_spec (settlersOf s pid) _ iWF hsettE hndsett
    refine ⟨jWF, ?_, ?_, ?_, ?_⟩
    · rw [jpl, ipl]
    · rw [jcur, icur]
    · rw [jtile, itile]
    · intro p hp hpo
      have hb : p.id < s.nextId := hWF.2.1 p hp
      have h1 : ∀ w ∈ shuffle (warriorsOf s pid), w.id ≠ p.id := by
        intro w hw he
        have hwp := id_inj s.pieces hWF.1 w p (hwarr w hw).1 hp he
        exact hpo (hwp ▸ (hwarr w hw).2.1)
      have h2 : ∀ q ∈ settlersOf s pid, q.id ≠ p.id := by
        intro q hq he
        have hqp := id_inj s.pieces hWF.1 q p (hsettmemS q hq).1 hp he
        exact hpo (hqp ▸ (hsettmemS q hq).2.1)
      rw [jfind p.id h2, ifind p.id h1 hb]

/-! ## Claim C3: city capture -/

set_option maxHeartbeats 1600000 in
/-- Claim C3: a warrior attack that drives a City's hp to zero or below
captures it instead of removing it: the city keeps its registry entry
with hp reset to exactly `⌈maxHp / 3⌉` (however far below zero it was
driven), its owner becomes the attacker's owner, its production is
cleared, the tile's ownership flips to the attacker, the previous owner
is run through the elimination check, and the attacker stays on its own
tile marked as moved, with a blocked result. -/
theorem c3_city_capture (s : GameState) (piece defender : Piece)
    (tr tc : Int) (shuffle : List Piece → List Piece)
    (hWF : WF s) (hsh : ∀ l, (shuffle l).Perm l)
    (hmem : piece ∈ s.pieces)
    (hvalid : (canMoveTo s piece tr tc).valid = true)
    (htgt : pieceAt s tr tc = some defender)
    (hwar : piece.type = PieceType.warrior)
    (hcity : defender.type = PieceType.city)
    (hko : defender.hp - (piece.damage : Int) ≤ 0)
    (hne : piece.ownerId ≠ defender.ownerId) :
    (movePiece s piece tr tc shuffle).1.success = true ∧
    (movePiece s piece tr tc shuffle).1.blocked = true ∧
    (∃ cr, (movePiece s piece tr tc shuffle).1.combat = some cr ∧
      cr.cityFlipped = true ∧ cr.defenderDestroyed = false ∧
      cr.attackerSurvived = true ∧ cr.elimination.isSome = true) ∧
    (∃ d2, findPiece (movePiece s piece tr tc shuffle).2 defender.id
        = some d2 ∧
      d2.hp = (((defender.maxHp + 2) / 3 : Nat) : Int) ∧
      d2.ownerId = piece.ownerId ∧
      d2.production = none ∧ d2.productionProgress = 0 ∧
      d2.row = defender.row ∧ d2.col = defender.col ∧
      d2.type = PieceType.city) ∧
    getCell (movePiece s piece tr tc shuffle).2.tileOwnership
      defender.row defender.col = some piece.ownerId ∧
    (∃ a2, findPiece (movePiece s piece tr tc shuffle).2 piece.id
        = some a2 ∧
      a2.row = piece.row ∧ a2.col = piece.col ∧ a2.hasMoved = true) := by
  obtain ⟨hdmem, hdrow, hdcol, hdcell⟩ :=
    pieceAt_spec s hWF.1 hWF.2.2 tr tc defender htgt
  have hidne : piece.id ≠ defender.id := by
    intro he
    exact hne (congrArg Piece.ownerId
      (id_inj s.pieces hWF.1 piece defender hmem hdmem he))
  have hfind_s_def : findPiece s defender.id = some defender :=
    find?_id_eq_some s.pieces defender hWF.1 hdmem
  have hfind_s_p : findPiece s piece.id = some piece :=
    find?_id_eq_some s.pieces piece hWF.1 hmem
  have hcb : (defender.type == PieceType.city) = true := by
    rw [hcity]
    decide
  have hwb : (piece.type == PieceType.warrior) = true := by
    rw [hwar]
    decide
  set S1 := updatePiece s defender.id
    (fun p => { p with hp := p.hp - (piece.damage : Int) }) with hS1def
  set S2 := updatePiece S1 defender.id
    (fun p => { p with hp := (((p.maxHp + 2) / 3 : Nat) : Int),
                       ownerId := piece.ownerId,
                       production := none,
                       productionProgress := 0 }) with hS2def
  set OWN3 := setCell S2.tileOwnership defender.row defender.col
    (some piece.ownerId) with hOWNdef
  set S3 := { S2 with tileOwnership := OWN3 } with hS3def
  set D2 := { defender with
      hp := (((defender.maxHp + 2) / 3 : Nat) : Int),
      ownerId := piece.ownerId,
      production := none,
      productionProgress := 0 } with hD2def
  have hcomb : resolveCombat s piece defender shuffle =
      (⟨piece.damage, false, true, true,
        some (checkPlayerElimination S3 defender.ownerId shuffle).1⟩,
       checkVictory (checkPlayerElimination S3 defender.ownerId shuffle).2)
      := by
    unfold resolveCombat
    dsimp only
    rw [if_pos hko, if_pos hcb]
  have hmove : movePiece s piece tr tc shuffle =
      (⟨true, none, true,
        some ⟨piece.damage, false, true, true,
          some (checkPlayerElimination S3 defender.ownerId shuffle).1⟩⟩,
       updatePiece
         (checkVictory (checkPlayerElimination S3 defender.ownerId shuffle).2)
         piece.id (fun p => { p with hasMoved := true })) := by
    unfold movePiece
    dsimp only
    rw [if_pos hvalid, htgt]
    dsimp only
    rw [if_pos hwb, hcomb]
    rfl
  have hWF1 : WF S1 := by
    rw [hS1def]
    exact WF_updatePiece s defender.id _ (fun q => rfl) (fun q => rfl)
      (fun q => rfl) hWF
  have hWF2 : WF S2 := by
    rw [hS2def]
    exact WF_updatePiece S1 defender.id _ (fun q => rfl) (fun q => rfl)
      (fun q => rfl) hWF1
  have hWF3 : WF S3 := by
    rw [hS3def]
    exact hWF2
  have hfind2 : findPiece S2 defender.id = some D2 := by
    rw [hS2def, findPiece_updatePiece_self S1 defender.id
        (fun p => { p with hp := (((p.maxHp + 2) / 3 : Nat) : Int),
                           ownerId := piece.ownerId,
                           production := none,
                           productionProgress := 0 }) (fun q => rfl),
      hS1def, findPiece_updatePiece_self s defender.id
        (fun p => { p with hp := p.hp - (piece.damage : Int) })
        (fun q => rfl),
      hfind_s_def]
    rfl
  have hfind3 : findPiece S3 defender.id = some D2 := by
    rw [hS3def]
    exact hfind2
  have hfp2 : findPiece S2 piece.id = some piece := by
    rw [hS2def]
    have h1 : findPiece (updatePiece S1 defender.id
        (fun p => { p with hp := (((p.maxHp + 2) / 3 : Nat) : Int),
                           ownerId := piece.ownerId,
                           production := none,
                           productionProgress := 0 })) piece.id
        = findPiece S1 piece.id :=
      findPiece_updatePiece_ne S1 defender.id piece.id _ (fun q => rfl) hidne
    rw [h1, hS1def]
    have h2 : findPiece (updatePiece s defender.id
        (fun p => { p with hp := p.hp - (piece.damage : Int) })) piece.id
        = findPiece s piece.id :=
      findPiece_updatePiece_ne s defender.id piece.id _ (fun q => rfl) hidne
    rw [h2, hfind_s_p]
  have hfp3 : findPiece S3 piece.id = some piece := by
    rw [hS3def]
    exact hfp2
  have hd2mem : D2 ∈ S3.pieces := List.mem_of_find?_eq_some hfind3
  have hpmem3 : piece ∈ S3.pieces := List.mem_of_find?_eq_some hfp3
  obtain ⟨kWF, kpl, kcur, ktile, kfind⟩ :=
    checkPlayerElimination_frame S3 defender.ownerId shuffle hWF3
      (hsh (warriorsOf S3 defender.ownerId))
  have hd2id : D2.id = defender.id := by rw [hD2def]
  have hd2own : D2.ownerId ≠ defender.ownerId := by
    rw [hD2def]
    exact hne
  have hkd : findPiece
      (checkPlayerElimination S3 defender.ownerId shuffle).2 defender.id
      = some D2 := by
    have h := kfind D2 hd2mem hd2own
    rw [hd2id] at h
    rw [h, hfind3]
  have hkp : findPiece
      (checkPlayerElimination S3 defender.ownerId shuffle).2 piece.id
      = some piece := by
    rw [kfind piece hpmem3 hne, hfp3]
  rw [hmove]
  refine ⟨rfl, rfl,
    ⟨⟨piece.damage, false, true, true,
      some (checkPlayerElimination S3 defender.ownerId shuffle).1⟩,
      rfl, rfl, rfl, rfl, rfl⟩,
    ⟨D2, ?_, ?_, ?_, ?_, ?_, ?_, ?_, ?_⟩, ?_,
    ⟨{ piece with hasMoved := true }, ?_, rfl, rfl, rfl⟩⟩
  · show findPiece (updatePiece
        (checkVictory (checkPlayerElimination S3 defender.ownerId shuffle).2)
        piece.id (fun p => { p with hasMoved := true })) defender.id
      = some D2
    rw [findPiece_updatePiece_ne
        (checkVictory (checkPlayerElimination S3 defender.ownerId shuffle).2)
        piece.id defender.id (fun p => { p with hasMoved := true })
        (fun q => rfl) (Ne.symm hidne),
      checkVictory_findPiece, hkd]
  · rw [hD2def]
  · rw [hD2def]
  · rw [hD2def]
  · rw [hD2def]
  · rw [hD2def, hcity]
  · rw [hD2def]
  · rw [hD2def, hcity]
  · show getCell (updatePiece
        (checkVictory (checkPlayerElimination S3 defender.ownerId shuffle).2)
        piece.id (fun p => { p with hasMoved := true })).tileOwnership
        defender.row defender.col = some piece.ownerId
    have ht1 : (updatePiece
        (checkVictory (checkPlayerElimination S3 defender.ownerId shuffle).2)
        piece.id (fun p => { p with hasMoved := true })).tileOwnership
        = (checkVictory
            (checkPlayerElimination S3 defender.ownerId shuffle).2).tileOwnership
      := rfl
    rw [ht1, checkVictory_tileOwnership, ktile, hS3def]
    show getCell OWN3 defender.row defender.col = some piece.ownerId
    rw [hOWNdef]
    have hv : isValidTile defender.row defender.col = true := by
      have hx := (hWF.2.2.1 defender hdmem).1
      rw [hdrow, hdcol]
      rw [hdrow, hdcol] at hx
      exact hx
    exact getCell_setCell_self _ _ _ _ hv
  · show findPiece (updatePiece
        (checkVictory (checkPlayerElimination S3 defender.ownerId shuffle).2)
        piece.id (fun p => { p with hasMoved := true })) piece.id
      = some { piece with hasMoved := true }
    rw [findPiece_updatePiece_self
        (checkVictory (checkPlayerElimination S3 defender.ownerId shuffle).2)
        piece.id (fun p => { p with hasMoved := true }) (fun q => rfl),
      checkVictory_findPiece, hkp]
    rfl

/-- Witness state for C3: player 0's warrior at (0,0) attacks player 1's
one-hp city at (0,1). -/
def c3State : GameState :=
  mkState warPlayers 0
    [mkPiece 1 PieceType.warrior 0 0 0,
     { mkPiece 2 PieceType.city 1 0 1 with hp := 1 }]
    emptyBoard false

/-- The hypotheses of `c3_city_capture` hold at `c3State`, and the
attack indeed reports the blocked (capture) outcome there. -/
theorem c3_city_capture_witness :
    WF c3State ∧
    (canMoveTo c3State (mkPiece 1 PieceType.warrior 0 0 0) 0 1).valid
      = true ∧
    (movePiece c3State (mkPiece 1 PieceType.warrior 0 0 0) 0 1
      (fun l => l)).1.blocked = true :=
  ⟨by decide, by decide,
    (c3_city_capture c3State (mkPiece 1 PieceType.warrior 0 0 0)
      { mkPiece 2 PieceType.city 1 0 1 with hp := 1 } 0 1 (fun l => l)
      (by decide) (fun l => List.Perm.refl l) (by decide) (by decide)
      (by decide) (by decide) (by decide) (by decide) (by decide)).2.1⟩

/-- `checkVictory` does not touch the board grid. -/
theorem checkVictory_board (t : GameState) :
    (checkVictory t).board = t.board := by
  unfold checkVictory
  split <;> rfl

/-- The registry, grid, roster and counters produced by `doMove`
(whatever its tile-ownership branch does). -/
theorem doMove_proj (s : GameState) (piece : Piece) (tr tc : Int) :
    (doMove s piece tr tc).pieces =
      s.pieces.map (fun q => if q.id == piece.id
        then { q with row := tr, col := tc, hasMoved := true } else q) ∧
    (doMove s piece tr tc).board =
      setCell (setCell s.board piece.row piece.col none) tr tc
        (some piece.id) ∧
    (doMove s piece tr tc).players = s.players ∧
    (doMove s piece tr tc).currentPlayerIndex = s.currentPlayerIndex ∧
    (doMove s piece tr tc).nextId = s.nextId := by
  unfold doMove updatePiece
  dsimp only
  repeat' split
  all_goals exact ⟨rfl, rfl, rfl, rfl, rfl⟩

set_option maxHeartbeats 1600000 in
/-- What `doMove` does when the target tile is a valid empty cell of a
well-formed state: the moving piece's registry entry is repositioned and
flagged, every other entry is kept, the target cell now holds the piece,
its old cell is cleared, all other cells are untouched, and
well-formedness is preserved. -/
theorem doMove_spec (s : GameState) (piece : Piece) (tr tc : Int)
    (hWF : WF s) (hmem : piece ∈ s.pieces)
    (hv : isValidTile tr tc = true)
    (hempty : getCell s.board tr tc = none) :
    WF (doMove s piece tr tc) ∧
    findPiece (doMove s piece tr tc) piece.id
      = some { piece with row := tr, col := tc, hasMoved := true } ∧
    (∀ j, j ≠ piece.id →
      findPiece (doMove s piece tr tc) j = findPiece s j) ∧
    getCell (doMove s piece tr tc).board tr tc = some piece.id ∧
    getCell (doMove s piece tr tc).board piece.row piece.col = none ∧
    (∀ R C, ¬(R = piece.row ∧ C = piece.col) → ¬(R = tr ∧ C = tc) →
      getCell (doMove s piece tr tc).board R C = getCell s.board R C) := by
  obtain ⟨hn, hb, hc1, hc2⟩ := hWF
  obtain ⟨hpmv, hpmb, hpmp, hpmc, hpmn⟩ := doMove_proj s piece tr tc
  have hpv := hc1 piece hmem
  have holdne : ¬(piece.row = tr ∧ piece.col = tc) := by
    intro ⟨h1, h2⟩
    rw [h1, h2] at hpv
    rw [hpv.2] at hempty
    cases hempty
  have hgid : ∀ q : Piece,
      ((if q.id == piece.id
        then { q with row := tr, col := tc, hasMoved := true } else q)
        : Piece).id = q.id := by
    intro q
    by_cases hq : q.id = piece.id <;> simp [hq]
  refine ⟨⟨?_, ?_, ?_, ?_⟩, ?_, ?_, ?_, ?_, ?_⟩
  · rw [hpmv, List.map_map]
    have he : ((fun q : Piece => q.id) ∘ fun q => if q.id == piece.id
        then { q with row := tr, col := tc, hasMoved := true } else q) =
        (fun q : Piece => q.id) := funext fun q => hgid q
    rw [he]
    exact hn
  · intro p hp
    rw [hpmv] at hp
    obtain ⟨q, hq, rfl⟩ := List.mem_map.mp hp
    rw [hpmn, hgid q]
    exact hb q hq
  · intro p hp
    rw [hpmv] at hp
    obtain ⟨q, hq, rfl⟩ := List.mem_map.mp hp
    rw [hpmb]
    by_cases hqid : q.id = piece.id
    · have hqp : q = piece := id_inj s.pieces hn q piece hq hmem hqid
      subst hqp
      rw [if_pos (by simp)]
      refine ⟨hv, ?_⟩
      rw [getCell_setCell_self _ _ _ _ hv]
    · rw [if_neg (by simpa using hqid)]
      have hqv := hc1 q hq
      have hne1 : ¬(q.row = tr ∧ q.col = tc) := by
        intro ⟨h1, h2⟩
        rw [h1, h2] at hqv
        rw [hqv.2] at hempty
        cases hempty
      have hne2 : ¬(q.row = piece.row ∧ q.col = piece.col) := by
        intro ⟨h1, h2⟩
        have hx := hqv.2
        rw [h1, h2] at hx
        rw [hpv.2] at hx
        exact hqid ((Option.some.injEq _ _).mp hx).symm
      refine ⟨hqv.1, ?_⟩
      rw [getCell_setCell_ne _ _ _ _ _ _ hne1,
        getCell_setCell_ne _ _ _ _ _ _ hne2]
      exact hqv.2
  · intro r hr c hc
    apply cellOk_intro
    intro pid hg
    rw [hpmb] at hg
    by_cases h1 : ((r : Int) = tr ∧ (c : Int) = tc)
    · rw [h1.1, h1.2, getCell_setCell_self _ _ _ _ hv] at hg
      have hpid : pid = piece.id := ((Option.some.injEq _ _).mp hg).symm
      refine ⟨{ piece with row := tr, col := tc, hasMoved := true }, ?_, ?_, ?_, ?_⟩
      · rw [hpmv]
        have hx : (if piece.id == piece.id
            then { piece with row := tr, col := tc, hasMoved := true }
            else piece) = { piece with row := tr, col := tc, hasMoved := true }
          := by rw [if_pos (by simp)]
        rw [← hx]
        exact List.mem_map_of_mem _ hmem
      · rw [hpid]
      · rw [h1.1]
      · rw [h1.2]
    · rw [getCell_setCell_ne _ _ _ _ _ _ h1] at hg
      by_cases h2 : ((r : Int) = piece.row ∧ (c : Int) = piece.col)
      · rw [h2.1, h2.2] at hg
        rw [getCell_setCell_self _ _ _ _ hpv.1] at hg
        cases hg
      · rw [getCell_setCell_ne _ _ _ _ _ _ h2] at hg
        obtain ⟨q, hq, hqid, hqrow, hqcol⟩ :=
          cellOk_elim s r c (hc2 r hr c hc) pid hg
        have hqne : q.id ≠ piece.id := by
          intro he
          have hqp : q = piece := id_inj s.pieces hn q piece hq hmem he
          exact h2 ⟨by rw [← hqrow, hqp], by rw [← hqcol, hqp]⟩
        refine ⟨q, ?_, hqid, hqrow, hqcol⟩
        rw [hpmv]
        have hx : (if q.id == piece.id
            then { q with row := tr, col := tc, hasMoved := true }
            else q) = q := by rw [if_neg (by simpa using hqne)]
        rw [← hx]
        exact List.mem_map_of_mem _ hq
  · show (doMove s piece tr tc).pieces.find? (fun q => q.id == piece.id)
      = some { piece with row := tr, col := tc, hasMoved := true }
    rw [hpmv, find?_id_update_self s.pieces piece.id
        (fun q => { q with row := tr, col := tc, hasMoved := true })
        (fun q => rfl),
      find?_id_eq_some s.pieces piece hn hmem]
    rfl
  · intro j hj
    show (doMove s piece tr tc).pieces.find? (fun q => q.id == j)
      = findPiece s j
    rw [hpmv, find?_id_update_ne s.pieces piece.id j
        (fun q => { q with row := tr, col := tc, hasMoved := true })
        (fun q => rfl) hj]
    rfl
  · rw [hpmb, getCell_setCell_self _ _ _ _ hv]
  · rw [hpmb, getCell_setCell_ne _ _ _ _ _ _ holdne,
      getCell_setCell_self _ _ _ _ hpv.1]
  · intro R C hRC1 hRC2
    rw [hpmb, getCell_setCell_ne _ _ _ _ _ _ hRC2,
      getCell_setCell_ne _ _ _ _ _ _ hRC1]

/-! ## Claim C4: non-city combat -/

set_option maxHeartbeats 3200000 in
/-- Claim C4: a legal warrior attack on a non-City defender deals
exactly the attacker's damage.  If the resulting hp is ≤ 0 the defender
disappears from the registry and from every board cell and the attacker
advances onto the target tile (marked moved); if the defender survives,
its registry entry keeps its tile with hp lowered by exactly the damage,
and the attacker stays at its original tile, marked moved, with a
blocked result. -/
theorem c4_noncity_combat :
    (∀ (s : GameState) (piece defender : Piece) (tr tc : Int)
        (shuffle : List Piece → List Piece),
      WF s → piece ∈ s.pieces →
      (canMoveTo s piece tr tc).valid = true →
      pieceAt s tr tc = some defender →
      piece.type = PieceType.warrior →
      defender.type ≠ PieceType.city →
      piece.ownerId ≠ defender.ownerId →
      defender.hp - (piece.damage : Int) ≤ 0 →
      (movePiece s piece tr tc shuffle).1.success = true ∧
      (movePiece s piece tr tc shuffle).1.blocked = false ∧
      (∃ cr, (movePiece s piece tr tc shuffle).1.combat = some cr ∧
        cr.damageDealt = piece.damage ∧
        cr.defenderDestroyed = true ∧ cr.cityFlipped = false) ∧
      findPiece (movePiece s piece tr tc shuffle).2 defender.id = none ∧
      (∀ R C, getCell (movePiece s piece tr tc shuffle).2.board R C ≠
        some defender.id) ∧
      (∃ a2, findPiece (movePiece s piece tr tc shuffle).2 piece.id
          = some a2 ∧
        a2.row = tr ∧ a2.col = tc ∧ a2.hasMoved = true) ∧
      getCell (movePiece s piece tr tc shuffle).2.board tr tc
        = some piece.id ∧
      WF (movePiece s piece tr tc shuffle).2) ∧
    (∀ (s : GameState) (piece defender : Piece) (tr tc : Int)
        (shuffle : List Piece → List Piece),
      WF s → piece ∈ s.pieces →
      (canMoveTo s piece tr tc).valid = true →
      pieceAt s tr tc = some defender →
      piece.type = PieceType.warrior →
      defender.type ≠ PieceType.city →
      piece.ownerId ≠ defender.ownerId →
      ¬(defender.hp - (piece.damage : Int) ≤ 0) →
      (movePiece s piece tr tc shuffle).1.success = true ∧
      (movePiece s piece tr tc shuffle).1.blocked = true ∧
      (∃ cr, (movePiece s piece tr tc shuffle).1.combat = some cr ∧
        cr.damageDealt = piece.damage ∧
        cr.defenderDestroyed = false ∧ cr.cityFlipped = false) ∧
      (∃ d2, findPiece (movePiece s piece tr tc shuffle).2 defender.id
          = some d2 ∧
        d2.hp = defender.hp - (piece.damage : Int) ∧
        d2.row = defender.row ∧ d2.col = defender.col ∧
        d2.type = defender.type) ∧
      (∃ a2, findPiece (movePiece s piece tr tc shuffle).2 piece.id
          = some a2 ∧
        a2.row = piece.row ∧ a2.col = piece.col ∧ a2.hasMoved = true)) := by
  constructor
  · intro s piece defender tr tc shuffle hWF hmem hvalid htgt hwar hncity
      hne hko
    obtain ⟨hdmem, hdrow, hdcol, hdcell⟩ :=
      pieceAt_spec s hWF.1 hWF.2.2 tr tc defender htgt
    have hidne : piece.id ≠ defender.id := by
      intro he
      exact hne (congrArg Piece.ownerId
        (id_inj s.pieces hWF.1 piece defender hmem hdmem he))
    have hfind_s_def : findPiece s defender.id = some defender :=
      find?_id_eq_some s.pieces defender hWF.1 hdmem
    have hfind_s_p : findPiece s piece.id = some piece :=
      find?_id_eq_some s.pieces piece hWF.1 hmem
    have hwb : (piece.type == PieceType.warrior) = true := by
      rw [hwar]
      decide
    have hncb : ¬((defender.type == PieceType.city) = true) := by
      intro h
      exact hncity (by simpa using h)
    have hdv : isValidTile tr tc = true := by
      have hx := (hWF.2.2.1 defender hdmem).1
      rw [hdrow, hdcol] at hx
      exact hx
    set S1 := updatePiece s defender.id
      (fun p => { p with hp := p.hp - (piece.damage : Int) }) with hS1def
    set D1 := { defender with hp := defender.hp - (piece.damage : Int) }
      with hD1def
    have hD1id : D1.id = defender.id := by rw [hD1def]
    have hWF1 : WF S1 := by
      rw [hS1def]
      exact WF_updatePiece s defender.id _ (fun q => rfl) (fun q => rfl)
        (fun q => rfl) hWF
    have hD1find : findPiece S1 defender.id = some D1 := by
      rw [hS1def, findPiece_updatePiece_self s defender.id
          (fun p => { p with hp := p.hp - (piece.damage : Int) })
          (fun q => rfl),
        hfind_s_def]
      rfl
    have hD1mem : D1 ∈ S1.pieces := List.mem_of_find?_eq_some hD1find
    have hfp1 : findPiece S1 piece.id = some piece := by
      rw [hS1def, findPiece_updatePiece_ne s defender.id piece.id
          (fun p => { p with hp := p.hp - (piece.damage : Int) })
          (fun q => rfl) hidne,
        hfind_s_p]
    obtain ⟨rWF, rcell, rtile, rkeep, rchar, rfindw, rfind, rlen, rcells,
      rnext⟩ := removePiece_spec S1 D1 hD1mem hWF1
    have hcomb : resolveCombat s piece defender shuffle =
        (⟨piece.damage, true, false, true, none⟩,
         checkVictory (removePiece S1 D1)) := by
      unfold resolveCombat
      dsimp only
      rw [if_pos hko, if_neg hncb]
    have hmove : movePiece s piece tr tc shuffle =
        (⟨true, none, false, some ⟨piece.damage, true, false, true, none⟩⟩,
         doMove (checkVictory (removePiece S1 D1)) piece tr tc) := by
      unfold movePiece
      dsimp only
      rw [if_pos hvalid, htgt]
      dsimp only
      rw [if_pos hwb, hcomb]
      rfl
    have hWFt : WF (checkVictory (removePiece S1 D1)) :=
      WF_checkVictory _ rWF
    have hfpt : findPiece (checkVictory (removePiece S1 D1)) piece.id
        = some piece := by
      rw [checkVictory_findPiece, rfind piece.id (by rw [hD1id]; exact hidne),
        hfp1]
    have hpt : piece ∈ (checkVictory (removePiece S1 D1)).pieces :=
      List.mem_of_find?_eq_some hfpt
    have hemptyt : getCell (checkVictory (removePiece S1 D1)).board tr tc
        = none := by
      rw [checkVictory_board]
      have hD1row : D1.row = tr := by
        rw [hD1def]
        exact hdrow
      have hD1col : D1.col = tc := by
        rw [hD1def]
        exact hdcol
      rw [hD1row, hD1col] at rcell
      exact rcell
    obtain ⟨dWF, dfind_self, dfind_ne, dcell_new, dcell_old, dcells⟩ :=
      doMove_spec (checkVictory (removePiece S1 D1)) piece tr tc hWFt hpt
        hdv hemptyt
    have hfd_none : findPiece
        (doMove (checkVictory (removePiece S1 D1)) piece tr tc) defender.id
        = none := by
      rw [dfind_ne defender.id (Ne.symm hidne), checkVictory_findPiece]
      have hx := rfindw
      rw [hD1id] at hx
      exact hx
    rw [hmove]
    refine ⟨rfl, rfl,
      ⟨⟨piece.damage, true, false, true, none⟩, rfl, rfl, rfl, rfl⟩,
      hfd_none, ?_,
      ⟨{ piece with row := tr, col := tc, hasMoved := true },
        dfind_self, rfl, rfl, rfl⟩,
      dcell_new, dWF⟩
    intro R C hgc
    obtain ⟨p, hp, hpid, hprow, hpcol⟩ :=
      StateInv_cell (doMove (checkVictory (removePiece S1 D1)) piece tr tc)
        dWF.2.2 R C defender.id hgc
    have hfp2 : findPiece
        (doMove (checkVictory (removePiece S1 D1)) piece tr tc) p.id
        = some p :=
      find?_id_eq_some _ p dWF.1 hp
    rw [hpid, hfd_none] at hfp2
    cases hfp2
  · intro s piece defender tr tc shuffle hWF hmem hvalid htgt hwar hncity
      hne hsurv
    obtain ⟨hdmem, hdrow, hdcol, hdcell⟩ :=
      pieceAt_spec s hWF.1 hWF.2.2 tr tc defender htgt
    have hidne : piece.id ≠ defender.id := by
      intro he
      exact hne (congrArg Piece.ownerId
        (id_inj s.pieces hWF.1 piece defender hmem hdmem he))
    have hfind_s_def : findPiece s defender.id = some defender :=
      find?_id_eq_some s.pieces defender hWF.1 hdmem
    have hfind_s_p : findPiece s piece.id = some piece :=
      find?_id_eq_some s.pieces piece hWF.1 hmem
    have hwb : (piece.type == PieceType.warrior) = true := by
      rw [hwar]
      decide
    set S1 := updatePiece s defender.id
      (fun p => { p with hp := p.hp - (piece.damage : Int) }) with hS1def
    set D1 := { defender with hp := defender.hp - (piece.damage : Int) }
      with hD1def
    have hD1find : findPiece S1 defender.id = some D1 := by
      rw [hS1def, findPiece_updatePiece_self s defender.id
          (fun p => { p with hp := p.hp - (piece.damage : Int) })
          (fun q => rfl),
        hfind_s_def]
      rfl
    have hfp1 : findPiece S1 piece.id = some piece := by
      rw [hS1def, findPiece_updatePiece_ne s defender.id piece.id
          (fun p => { p with hp := p.hp - (piece.damage : Int) })
          (fun q => rfl) hidne,
        hfind_s_p]
    have hcomb : resolveCombat s piece defender shuffle =
        (⟨piece.damage, false, false, true, none⟩, checkVictory S1) := by
      unfold resolveCombat
      dsimp only
      rw [if_neg hsurv]
    have hmove : movePiece s piece tr tc shuffle =
        (⟨true, none, true, some ⟨piece.damage, false, false, true, none⟩⟩,
         updatePiece (checkVictory S1) piece.id
           (fun p => { p with hasMoved := true })) := by
      unfold movePiece
      dsimp only
      rw [if_pos hvalid, htgt]
      dsimp only
      rw [if_pos hwb, hcomb]
      rfl
    rw [hmove]
    refine ⟨rfl, rfl,
      ⟨⟨piece.damage, false, false, true, none⟩, rfl, rfl, rfl, rfl⟩,
      ⟨D1, ?_, ?_, ?_, ?_, ?_⟩,
      ⟨{ piece with hasMoved := true }, ?_, rfl, rfl, rfl⟩⟩
    · show findPiece (updatePiece (checkVictory S1) piece.id
          (fun p => { p with hasMoved := true })) defender.id = some D1
      rw [findPiece_updatePiece_ne (checkVictory S1) piece.id defender.id
          (fun p => { p with hasMoved := true }) (fun q => rfl)
          (Ne.symm hidne),
        checkVictory_findPiece, hD1find]
    · rw [hD1def]
    · rw [hD1def]
    · rw [hD1def]
    · rw [hD1def]
    · show findPiece (updatePiece (checkVictory S1) piece.id
          (fun p => { p with hasMoved := true })) piece.id
        = some { piece with hasMoved := true }
      rw [findPiece_updatePiece_self (checkVictory S1) piece.id
          (fun p => { p with hasMoved := true }) (fun q => rfl),
        checkVictory_findPiece, hfp1]
      rfl

/-- Witness state for the destroy half of C4: an enemy warrior with one
hp stands next to player 0's warrior. -/
def c4StateA : GameState :=
  mkState warPlayers 0
    [mkPiece 1 PieceType.warrior 0 0 0,
     mkPiece 2 PieceType.warrior 1 0 1]
    emptyBoard false

/-- Witness state for the survive half of C4: the adjacent enemy
warrior has two hp and outlives one point of damage. -/
def c4StateB : GameState :=
  mkState warPlayers 0
    [mkPiece 1 PieceType.warrior 0 0 0,
     { mkPiece 2 PieceType.warrior 1 0 1 with hp := 2 }]
    emptyBoard false

/-- The hypotheses of both halves of `c4_noncity_combat` hold at the
two witness states, where the attack respectively advances (destroyed
defender) and is blocked (surviving defender). -/
theorem c4_noncity_combat_witness :
    WF c4StateA ∧ WF c4StateB ∧
    (movePiece c4StateA (mkPiece 1 PieceType.warrior 0 0 0) 0 1
      (fun l => l)).1.blocked = false ∧
    (movePiece c4StateB (mkPiece 1 PieceType.warrior 0 0 0) 0 1
      (fun l => l)).1.blocked = true :=
  ⟨by decide, by decide,
   (c4_noncity_combat.1 c4StateA (mkPiece 1 PieceType.warrior 0 0 0)
      (mkPiece 2 PieceType.warrior 1 0 1) 0 1 (fun l => l)
      (by decide) (by decide) (by decide) (by decide) (by decide)
      (by decide) (by decide) (by decide)).2.1,
   (c4_noncity_combat.2 c4StateB (mkPiece 1 PieceType.warrior 0 0 0)
      { mkPiece 2 PieceType.warrior 1 0 1 with hp := 2 } 0 1 (fun l => l)
      (by decide) (by decide) (by decide) (by decide) (by decide)
      (by decide) (by decide) (by decide)).2.1⟩

/-- A validated move target is inside the board. -/
theorem canMoveTo_inbounds (s : GameState) (piece : Piece) (tr tc : Int)
    (h : (canMoveTo s piece tr tc).valid = true) :
    isValidTile tr tc = true := by
  cases hb : isValidTile tr tc with
  | false =>
    exfalso
    unfold canMoveTo at h
    rw [if_pos (by rw [hb]; rfl)] at h
    exact absurd h (by decide)
  | true => rfl

/-- In a well-formed state an empty `pieceAt` read means an empty cell. -/
theorem pieceAt_none (s : GameState) (hWF : WF s) (R C : Int)
    (h : pieceAt s R C = none) : getCell s.board R C = none := by
  cases hg : getCell s.board R C with
  | none => rfl
  | some pid =>
    exfalso
    obtain ⟨p, hp, hpid, hr2, hc2⟩ := StateInv_cell s hWF.2.2 R C pid hg
    have hf := find?_id_eq_some s.pieces p hWF.1 hp
    rw [hpid] at hf
    unfold pieceAt at h
    rw [hg] at h
    have h' : s.pieces.find? (fun q => q.id == pid) = none := h
    rw [hf] at h'
    cases h'

set_option maxHeartbeats 3200000 in
/-- Only a warrior validates a move onto an occupied tile. -/
theorem canMoveTo_occupied_warrior (s : GameState) (piece : Piece)
    (tr tc : Int) (t : Piece)
    (h : (canMoveTo s piece tr tc).valid = true)
    (ht : pieceAt s tr tc = some t) :
    (piece.type == PieceType.warrior) = true := by
  unfold canMoveTo canMoveToTail at h
  rw [ht] at h
  repeat' split at h
  all_goals first
    | assumption
    | (exact absurd h (by decide))
    | (cases hpt : piece.type <;> simp_all <;>
        ((repeat' split at h) <;> exact absurd h (by decide)))

/-- A validated warrior move never targets the piece's own tile. -/
theorem canMoveTo_valid_not_self (s : GameState) (piece : Piece)
    (tr tc : Int)
    (h : (canMoveTo s piece tr tc).valid = true)
    (hw : (piece.type == PieceType.warrior) = true) :
    ¬(piece.row = tr ∧ piece.col = tc) := by
  intro hself
  obtain ⟨h1, h2⟩ := hself
  subst h1
  subst h2
  unfold canMoveTo at h
  repeat' split at h
  all_goals first
    | (exact absurd h (by decide))
    | simp_all [Int.sub_self]

/-- What a successful adjacent-empty-tile search guarantees. -/
theorem findAdjacentEmptyTile_spec (s : GameState) (row col : Int)
    (rc : Int × Int) (h : findAdjacentEmptyTile s row col = some rc) :
    isValidTile rc.1 rc.2 = true ∧ getCell s.board rc.1 rc.2 = none := by
  unfold findAdjacentEmptyTile at h
  obtain ⟨d, hd, hfd⟩ := List.exists_of_findSome?_eq_some h
  dsimp only at hfd
  by_cases hcond : (isValidTile (row + d.1) (col + d.2) &&
      (getCell s.board (row + d.1) (col + d.2)).isNone) = true
  · rw [if_pos hcond] at hfd
    have hrc : (row + d.1, col + d.2) = rc := (Option.some.injEq _ _).mp hfd
    subst hrc
    simp only [Bool.and_eq_true, Option.isNone_iff_eq_none] at hcond
    exact ⟨hcond.1, hcond.2⟩
  · rw [if_neg hcond] at hfd
    cases hfd


/-! ## Claim C9: board-registry consistency -/

set_option maxHeartbeats 3200000 in
/-- Claim C9: every mutating operation — `movePiece`, `resolveCombat`,
`checkPlayerElimination`, `settlerBuildCity`, `spawnUnit` — preserves
the full board–registry invariant `WF` (each registered piece sits on a
valid tile whose cell holds exactly its id, each occupied cell points
back to one registered piece, ids are unique and bounded), and
`removePiece` clears the removed piece's cell while leaving the
tile-ownership grid untouched. -/
theorem c9_board_registry_consistency :
    (∀ (s : GameState) (p : Piece), WF s → p ∈ s.pieces →
      WF (removePiece s p) ∧
      getCell (removePiece s p).board p.row p.col = none ∧
      (removePiece s p).tileOwnership = s.tileOwnership) ∧
    (∀ (s : GameState) (piece : Piece) (tr tc : Int)
        (shuffle : List Piece → List Piece),
      WF s → (∀ l, (shuffle l).Perm l) → piece ∈ s.pieces →
      WF (movePiece s piece tr tc shuffle).2) ∧
    (∀ (s : GameState) (attacker defender : Piece)
        (shuffle : List Piece → List Piece),
      WF s → (∀ l, (shuffle l).Perm l) → defender ∈ s.pieces →
      WF (resolveCombat s attacker defender shuffle).2) ∧
    (∀ (s : GameState) (pid : Nat) (shuffle : List Piece → List Piece),
      WF s → (∀ l, (shuffle l).Perm l) →
      WF (checkPlayerElimination s pid shuffle).2) ∧
    (∀ (s : GameState) (settler : Piece), WF s → settler ∈ s.pieces →
      WF (settlerBuildCity s settler).2) ∧
    (∀ (s : GameState) (city : Piece) (ty : PieceType), WF s →
      WF (spawnUnit s city ty)) := by
  refine ⟨?_, ?_, ?_, ?_, ?_, ?_⟩
  · intro s p hWF hp
    obtain ⟨h1, h2, h3, h4⟩ := removePiece_spec s p hp hWF
    exact ⟨h1, h2, h3⟩
  · intro s piece tr tc shuffle hWF hsh hmem
    by_cases hvalid : (canMoveTo s piece tr tc).valid = true
    · have hv := canMoveTo_inbounds s piece tr tc hvalid
      cases htgt : pieceAt s tr tc with
      | none =>
        have hst : (movePiece s piece tr tc shuffle).2 =
            doMove s piece tr tc := by
          unfold movePiece
          dsimp only
          rw [if_pos hvalid, htgt]
        rw [hst]
        exact (doMove_spec s piece tr tc hWF hmem hv
          (pieceAt_none s hWF tr tc htgt)).1
      | some defender =>
        have hwb := canMoveTo_occupied_warrior s piece tr tc defender
          hvalid htgt
        obtain ⟨hdmem, hdrow, hdcol, hdcell⟩ :=
          pieceAt_spec s hWF.1 hWF.2.2 tr tc defender htgt
        have hnotself := canMoveTo_valid_not_self s piece tr tc hvalid hwb
        have hidne : piece.id ≠ defender.id := by
          intro he
          have hpd := id_inj s.pieces hWF.1 piece defender hmem hdmem he
          exact hnotself ⟨by rw [hpd, hdrow], by rw [hpd, hdcol]⟩
        have hfind_s_def : findPiece s defender.id = some defender :=
          find?_id_eq_some s.pieces defender hWF.1 hdmem
        have hfind_s_p : findPiece s piece.id = some piece :=
          find?_id_eq_some s.pieces piece hWF.1 hmem
        set S1 := updatePiece s defender.id
          (fun p => { p with hp := p.hp - (piece.damage : Int) })
          with hS1def
        have hWF1 : WF S1 := by
          rw [hS1def]
          exact WF_updatePiece s defender.id _ (fun q => rfl) (fun q => rfl)
            (fun q => rfl) hWF
        by_cases hko : defender.hp - (piece.damage : Int) ≤ 0
        · by_cases hcb : (defender.type == PieceType.city) = true
          · set S2 := updatePiece S1 defender.id
              (fun p => { p with hp := (((p.maxHp + 2) / 3 : Nat) : Int),
                                 ownerId := piece.ownerId,
                                 production := none,
                                 productionProgress := 0 }) with hS2def
            set OWN3 := setCell S2.tileOwnership defender.row defender.col
              (some piece.ownerId) with hOWNdef
            set S3 := { S2 with tileOwnership := OWN3 } with hS3def
            have hcomb : resolveCombat s piece defender shuffle =
                (⟨piece.damage, false, true, true,
                  some (checkPlayerElimination S3 defender.ownerId
                    shuffle).1⟩,
                 checkVictory (checkPlayerElimination S3 defender.ownerId
                   shuffle).2) := by
              unfold resolveCombat
              dsimp only
              rw [if_pos hko, if_pos hcb]
            have hst : (movePiece s piece tr tc shuffle).2 =
                updatePiece
                  (checkVictory (checkPlayerElimination S3 defender.ownerId
                    shuffle).2)
                  piece.id (fun p => { p with hasMoved := true }) := by
              unfold movePiece
              dsimp only
              rw [if_pos hvalid, htgt]
              dsimp only
              rw [if_pos hwb, hcomb]
              rfl
            have hWF2 : WF S2 := by
              rw [hS2def]
              exact WF_updatePiece S1 defender.id _ (fun q => rfl)
                (fun q => rfl) (fun q => rfl) hWF1
            have hWF3 : WF S3 := by
              rw [hS3def]
              exact hWF2
            rw [hst]
            exact WF_updatePiece _ piece.id _ (fun q => rfl) (fun q => rfl)
              (fun q => rfl)
              (WF_checkVictory _
                (checkPlayerElimination_frame S3 defender.ownerId shuffle
                  hWF3 (hsh _)).1)
          · set D1 := { defender with
                hp := defender.hp - (piece.damage : Int) } with hD1def
            have hD1id : D1.id = defender.id := by rw [hD1def]
            have hD1find : findPiece S1 defender.id = some D1 := by
              rw [hS1def, findPiece_updatePiece_self s defender.id
                  (fun p => { p with hp := p.hp - (piece.damage : Int) })
                  (fun q => rfl),
                hfind_s_def]
              rfl
            have hD1mem : D1 ∈ S1.pieces := List.mem_of_find?_eq_some hD1find
            have hfp1 : findPiece S1 piece.id = some piece := by
              rw [hS1def, findPiece_updatePiece_ne s defender.id piece.id
                  (fun p => { p with hp := p.hp - (piece.damage : Int) })
                  (fun q => rfl) hidne,
                hfind_s_p]
            obtain ⟨rWF, rcell, rtile, rkeep, rchar, rfindw, rfind, rlen,
              rcells, rnext⟩ := removePiece_spec S1 D1 hD1mem hWF1
            have hcomb : resolveCombat s piece defender shuffle =
                (⟨piece.damage, true, false, true, none⟩,
                 checkVictory (removePiece S1 D1)) := by
              unfold resolveCombat
              dsimp only
              rw [if_pos hko, if_neg hcb]
            have hst : (movePiece s piece tr tc shuffle).2 =
                doMove (checkVictory (removePiece S1 D1)) piece tr tc := by
              unfold movePiece
              dsimp only
              rw [if_pos hvalid, htgt]
              dsimp only
              rw [if_pos hwb, hcomb]
              rfl
            have hWFt : WF (checkVictory (removePiece S1 D1)) :=
              WF_checkVictory _ rWF
            have hfpt : findPiece (checkVictory (removePiece S1 D1)) piece.id
                = some piece := by
              rw [checkVictory_findPiece,
                rfind piece.id (by rw [hD1id]; exact hidne), hfp1]
            have hpt : piece ∈ (checkVictory (removePiece S1 D1)).pieces :=
              List.mem_of_find?_eq_some hfpt
            have hemptyt : getCell (checkVictory (removePiece S1 D1)).board
                tr tc = none := by
              rw [checkVictory_board]
              have hD1row : D1.row = tr := by
                rw [hD1def]
                exact hdrow
              have hD1col : D1.col = tc := by
                rw [hD1def]
                exact hdcol
              rw [hD1row, hD1col] at rcell
              exact rcell
            rw [hst]
            exact (doMove_spec (checkVictory (removePiece S1 D1)) piece tr tc
              hWFt hpt hv hemptyt).1
        · have hcomb : resolveCombat s piece defender shuffle =
              (⟨piece.damage, false, false, true, none⟩, checkVictory S1)
              := by
            unfold resolveCombat
            dsimp only
            rw [if_neg hko]
          have hst : (movePiece s piece tr tc shuffle).2 =
              updatePiece (checkVictory S1) piece.id
                (fun p => { p with hasMoved := true }) := by
            unfold movePiece
            dsimp only
            rw [if_pos hvalid, htgt]
            dsimp only
            rw [if_pos hwb, hcomb]
            rfl
          rw [hst]
          exact WF_updatePiece _ piece.id _ (fun q => rfl) (fun q => rfl)
            (fun q => rfl) (WF_checkVictory _ hWF1)
    · have hst : (movePiece s piece tr tc shuffle).2 = s := by
        unfold movePiece
        dsimp only
        rw [if_neg hvalid]
      rw [hst]
      exact hWF
  · intro s attacker defender shuffle hWF hsh hdmem
    have hfind_s_def : findPiece s defender.id = some defender :=
      find?_id_eq_some s.pieces defender hWF.1 hdmem
    set S1 := updatePiece s defender.id
      (fun p => { p with hp := p.hp - (attacker.damage : Int) }) with hS1def
    have hWF1 : WF S1 := by
      rw [hS1def]
      exact WF_updatePiece s defender.id _ (fun q => rfl) (fun q => rfl)
        (fun q => rfl) hWF
    by_cases hko : defender.hp - (attacker.damage : Int) ≤ 0
    · by_cases hcb : (defender.type == PieceType.city) = true
      · set S2 := updatePiece S1 defender.id
          (fun p => { p with hp := (((p.maxHp + 2) / 3 : Nat) : Int),
                             ownerId := attacker.ownerId,
                             production := none,
                             productionProgress := 0 }) with hS2def
        set OWN3 := setCell S2.tileOwnership defender.row defender.col
          (some attacker.ownerId) with hOWNdef
        set S3 := { S2 with tileOwnership := OWN3 } with hS3def
        have hst : (resolveCombat s attacker defender shuffle).2 =
            checkVictory
              (checkPlayerElimination S3 defender.ownerId shuffle).2 := by
          unfold resolveCombat
          dsimp only
          rw [if_pos hko, if_pos hcb]
        have hWF2 : WF S2 := by
          rw [hS2def]
          exact WF_updatePiece S1 defender.id _ (fun q => rfl) (fun q => rfl)
            (fun q => rfl) hWF1
        have hWF3 : WF S3 := by
          rw [hS3def]
          exact hWF2
        rw [hst]
        exact WF_checkVictory _
          (checkPlayerElimination_frame S3 defender.ownerId shuffle hWF3
            (hsh _)).1
      · set D1 := { defender with
            hp := defender.hp - (attacker.damage : Int) } with hD1def
        have hD1find : findPiece S1 defender.id = some D1 := by
          rw [hS1def, findPiece_updatePiece_self s defender.id
              (fun p => { p with hp := p.hp - (attacker.damage : Int) })
              (fun q => rfl),
            hfind_s_def]
          rfl
        have hD1mem : D1 ∈ S1.pieces := List.mem_of_find?_eq_some hD1find
        have hst : (resolveCombat s attacker defender shuffle).2 =
            checkVictory (removePiece S1 D1) := by
          unfold resolveCombat
          dsimp only
          rw [if_pos hko, if_neg hcb]
        rw [hst]
        exact WF_checkVictory _ (removePiece_spec S1 D1 hD1mem hWF1).1
    · have hst : (resolveCombat s attacker defender shuffle).2 =
          checkVictory S1 := by
        unfold resolveCombat
        dsimp only
        rw [if_neg hko]
      rw [hst]
      exact WF_checkVictory _ hWF1
  · intro s pid shuffle hWF hsh
    exact (checkPlayerElimination_frame s pid shuffle hWF (hsh _)).1
  · intro s settler hWF hmem
    by_cases hvalid : (canSettlerBuildCity s settler).valid = true
    · obtain ⟨rWF, rcell, rtile, rkeep, rchar, rfindw, rfind, rlen, rcells,
        rnext⟩ := removePiece_spec s settler hmem hWF
      have hsv : isValidTile settler.row settler.col = true :=
        (hWF.2.2.1 settler hmem).1
      have hst : (settlerBuildCity s settler).2 =
          { (addPiece (removePiece s settler) PieceType.city settler.ownerId
              settler.row settler.col).2 with
            tileOwnership := setCell (addPiece (removePiece s settler)
              PieceType.city settler.ownerId settler.row
              settler.col).2.tileOwnership settler.row settler.col
              (some settler.ownerId) } := by
        unfold settlerBuildCity
        dsimp only
        rw [if_pos hvalid]
      rw [hst]
      exact (addPiece_spec (removePiece s settler) PieceType.city
        settler.ownerId settler.row settler.col hsv rcell rWF).1
    · have hst : (settlerBuildCity s settler).2 = s := by
        unfold settlerBuildCity
        dsimp only
        rw [if_neg hvalid]
      rw [hst]
      exact hWF
  · intro s city ty hWF
    cases hrc : findAdjacentEmptyTile s city.row city.col with
    | none =>
      have hst : spawnUnit s city ty =
          updatePiece s city.id (fun p =>
            { p with productionProgress := p.productionProgress - 1,
                     productionPaused := true }) := by
        unfold spawnUnit
        rw [hrc]
      rw [hst]
      exact WF_updatePiece s city.id _ (fun q => rfl) (fun q => rfl)
        (fun q => rfl) hWF
    | some rc =>
      obtain ⟨hrcv, hrce⟩ := findAdjacentEmptyTile_spec s city.row city.col
        rc hrc
      have hst : spawnUnit s city ty =
          (addPiece s ty city.ownerId rc.1 rc.2).2 := by
        unfold spawnUnit
        rw [hrc]
      rw [hst]
      exact (addPiece_spec s ty city.ownerId rc.1 rc.2 hrcv hrce hWF).1

/-- Witness state for C9: two warriors of players 0 and 1 on adjacent
tiles. -/
def c9State : GameState :=
  mkState warPlayers 0
    [mkPiece 1 PieceType.warrior 0 0 0,
     mkPiece 2 PieceType.warrior 1 0 1]
    emptyBoard false

/-- The hypotheses of `c9_board_registry_consistency` hold at
`c9State`, and the invariant is indeed preserved there by removal,
a combat move and a unit spawn. -/
theorem c9_board_registry_consistency_witness :
    WF c9State ∧
    WF (removePiece c9State (mkPiece 1 PieceType.warrior 0 0 0)) ∧
    WF (movePiece c9State (mkPiece 1 PieceType.warrior 0 0 0) 0 1
      (fun l => l)).2 ∧
    WF (spawnUnit c9State (mkPiece 1 PieceType.warrior 0 0 0)
      PieceType.warrior) :=
  ⟨by decide,
   (c9_board_registry_consistency.1 c9State
      (mkPiece 1 PieceType.warrior 0 0 0) (by decide) (by decide)).1,
   c9_board_registry_consistency.2.1 c9State
      (mkPiece 1 PieceType.warrior 0 0 0) 0 1 (fun l => l)
      (by decide) (fun l => List.Perm.refl l) (by decide),
   c9_board_registry_consistency.2.2.2.2.2 c9State
      (mkPiece 1 PieceType.warrior 0 0 0) PieceType.warrior (by decide)⟩
